import Mathlib

/-!
A shallow embedding of the `/sync` endpoint of `src/main.py`
(StockMaster UG Inventory API) and a verification of the specification
claims about it.

Modelling conventions:
* Python ints are `Int`; timestamps (`datetime`) are `Nat` ticks
  (`make_timezone_naive` only strips the timezone, which we do not model);
  numeric money payloads (`float` prices, `DECIMAL` columns) are `Int`,
  since the sync code only stores and copies them, never computes on them.
* Each PostgreSQL table is a `List` of row structures; `id SERIAL PRIMARY KEY`
  makes `id` globally unique in a table, so an `INSERT` with an id already
  present anywhere in the table raises `UniqueViolationError`.
* The handler acquires a connection (`db.acquire()`) but opens no transaction,
  so every statement autocommits individually.  `sync` therefore always
  returns the resulting store, paired with `Except`: on an error the store
  component is the state the database retains at the moment the exception
  is raised.
* The `products` columns `purchase_price`, `selling_price` and
  `reorder_level` are `NOT NULL` (lines 328-331) while the pydantic model
  lets the client omit them: a product with a missing one makes its
  `INSERT`/`UPDATE` raise `NotNullViolationError` — before any unique-index
  check — which the generic `except` maps to a 500.  Row fields are
  therefore plain `Int` and the merge step guards on `productHasNulls`.
-/

namespace Inventry

abbrev Timestamp := Nat

/-! ## Pydantic request/response models (src/main.py lines 91-223) -/

/-- `SaleItem` model (lines 127-131). -/
structure SaleItem where
  product_id : Int
  product_name : String
  quantity : Int
  price : Int
deriving DecidableEq

/-- `PurchaseItem` model (lines 148-152). -/
structure PurchaseItem where
  product_id : Int
  product_name : String
  quantity : Int
  price : Int
deriving DecidableEq

/-- `Product` model (lines 91-108). -/
structure Product where
  id : Int
  user_id : Option Int := none
  name : String
  category_id : Option Int := none
  description : Option String := none
  purchase_price : Option Int := none
  selling_price : Option Int := none
  stock : Int
  reorder_level : Option Int := none
  unit : String
  barcode : Option String := none
  created_at : Option Timestamp := none
deriving DecidableEq

/-- `Category` model (lines 110-114). -/
structure Category where
  id : Int
  user_id : Option Int := none
  name : String
  description : Option String := none
deriving DecidableEq

/-- `Supplier` model (lines 116-125). -/
structure Supplier where
  id : Int
  user_id : Option Int := none
  name : String
  contact_person : Option String := none
  phone : String
  email : Option String := none
  address : Option String := none
  products : List Int := []
  payment_terms : Option String := none
deriving DecidableEq

/-- `Sale` model (lines 133-146). -/
structure Sale where
  id : Int
  user_id : Option Int := none
  date : Timestamp
  invoice_number : String
  customer : Option String := none
  items : List SaleItem
  payment_method : String
  notes : Option String := none
deriving DecidableEq

/-- `Purchase` model (lines 154-167). -/
structure Purchase where
  id : Int
  user_id : Option Int := none
  date : Timestamp
  reference_number : String
  supplier_id : Int
  items : List PurchaseItem
  payment_method : String
  notes : Option String := none
deriving DecidableEq

/-- `Adjustment` model (lines 169-182). -/
structure Adjustment where
  id : Int
  user_id : Option Int := none
  date : Timestamp
  product_id : Int
  type : String
  quantity : Int
  reason : String
  username : String := "system"
deriving DecidableEq

/-- `Activity` model (lines 184-195). -/
structure Activity where
  id : Int
  user_id : Option Int := none
  date : Timestamp
  activity : String
  username : String := "system"
  details : String
deriving DecidableEq

/-- `Settings` model (lines 197-207); the two document-number fields are
named after their pydantic aliases `invoicePrefix` / `purchasePrefix`. -/
structure Settings where
  user_id : Option Int := none
  business_name : String
  currency : String
  tax_rate : Int
  low_stock_threshold : Int
  invoicePrefix : String
  purchasePrefix : String
deriving DecidableEq

/-- `SyncData` model (lines 209-223): both the request payload and the
response body of `/sync`. -/
structure SyncData where
  last_sync_time : Option Timestamp := none
  products : List Product := []
  categories : List Category := []
  suppliers : List Supplier := []
  sales : List Sale := []
  purchases : List Purchase := []
  adjustments : List Adjustment := []
  activities : List Activity := []
  settings : Option Settings := none
deriving DecidableEq

/-! ## Database rows (DDL in `init_db`, src/main.py lines 283-422).
Every row column `user_id` is `NOT NULL`, hence a plain `Int` here. -/

/-- Row of the `products` table (lines 321-336).  `purchase_price`,
`selling_price`, `stock` and `reorder_level` are declared `NOT NULL` in the
DDL, hence plain `Int` here — although the pydantic `Product` model lets the
client omit the first three, in which case the write raises
`NotNullViolationError` (see `productMerge`). -/
structure ProductRow where
  id : Int
  user_id : Int
  name : String
  category_id : Option Int
  description : Option String
  purchase_price : Int
  selling_price : Int
  stock : Int
  reorder_level : Int
  unit : String
  barcode : Option String
  created_at : Timestamp
deriving DecidableEq

/-- Row of the `categories` table (lines 338-345). -/
structure CategoryRow where
  id : Int
  user_id : Int
  name : String
  description : Option String
deriving DecidableEq

/-- Row of the `suppliers` table (lines 347-359). -/
structure SupplierRow where
  id : Int
  user_id : Int
  name : String
  contact_person : Option String
  phone : String
  email : Option String
  address : Option String
  products : List Int
  payment_terms : Option String
deriving DecidableEq

/-- Row of the `sales` table (lines 361-372); `items JSONB` holds the
serialized item list. -/
structure SaleRow where
  id : Int
  user_id : Int
  date : Timestamp
  invoice_number : String
  customer : Option String
  items : List SaleItem
  payment_method : String
  notes : Option String
deriving DecidableEq

/-- Row of the `purchases` table (lines 374-385). -/
structure PurchaseRow where
  id : Int
  user_id : Int
  date : Timestamp
  reference_number : String
  supplier_id : Int
  items : List PurchaseItem
  payment_method : String
  notes : Option String
deriving DecidableEq

/-- Row of the `adjustments` table (lines 387-398). -/
structure AdjustmentRow where
  id : Int
  user_id : Int
  date : Timestamp
  product_id : Int
  type : String
  quantity : Int
  reason : String
  username : String
deriving DecidableEq

/-- Row of the `activities` table (lines 400-409). -/
structure ActivityRow where
  id : Int
  user_id : Int
  date : Timestamp
  activity : String
  username : String
  details : String
deriving DecidableEq

/-- Row of the `settings` table (lines 411-422); primary key is `user_id`. -/
structure SettingsRow where
  user_id : Int
  business_name : String
  currency : String
  tax_rate : Int
  low_stock_threshold : Int
  invoicePrefix : String
  purchasePrefix : String
  updated_at : Timestamp
deriving DecidableEq

/-- The authoritative store: one list per table. -/
structure Store where
  products : List ProductRow := []
  categories : List CategoryRow := []
  suppliers : List SupplierRow := []
  sales : List SaleRow := []
  purchases : List PurchaseRow := []
  adjustments : List AdjustmentRow := []
  activities : List ActivityRow := []
  settings : List SettingsRow := []
deriving DecidableEq

/-- The storage errors the sync statements can raise:
`asyncpg.UniqueViolationError` (primary-key conflict on an insert) and
`asyncpg.NotNullViolationError` (a `NULL` written to a `NOT NULL` column,
possible only for the three nullable price/reorder fields of the `Product`
model).  Postgres checks column constraints when it forms the tuple, so a
NOT NULL violation fires before the unique-index check. -/
inductive SyncErr where
  | uniqueViolation
  | notNullViolation
deriving DecidableEq

/-- HTTP status the exception handler maps each storage error to:
`UniqueViolationError` is caught specifically and becomes 409 CONFLICT
(src/main.py lines 1089-1094); `NotNullViolationError` is not — it falls
through to the generic handler (lines 1096-1101) and becomes 500. -/
def errorStatus : SyncErr → Nat
  | SyncErr.uniqueViolation => 409
  | SyncErr.notNullViolation => 500

/-! ## Merge primitives -/

/-- The row selected by
`SELECT * FROM t WHERE id = $1 AND user_id = $2`. -/
def matchesKey (getId getUid : ρ → Int) (rid uid : Int) (r : ρ) : Bool :=
  getId r == rid && getUid r == uid

/-- The shared shape of the seven copy-pasted per-entity merge blocks of the
sync handler: `SELECT` by `(id, user_id)`; if a row exists, `UPDATE` it
(`upd`); otherwise `INSERT` the new row `ins`, which raises
`UniqueViolationError` when the primary-key column `id` is already taken
anywhere in the table. -/
def upsertMerge (getId getUid : ρ → Int) (rid uid : Int) (upd : ρ → ρ) (ins : ρ)
    (tbl : List ρ) : List ρ × Option SyncErr :=
  match tbl.find? (matchesKey getId getUid rid uid) with
  | some _ =>
      (tbl.map (fun r => if matchesKey getId getUid rid uid r then upd r else r), none)
  | none =>
      if tbl.any (fun r => getId r == rid) then
        (tbl, some SyncErr.uniqueViolation)
      else
        (tbl ++ [ins], none)

/-- `INSERT ... ON CONFLICT (key) DO UPDATE`: used by the activities block
(conflict target `id`, src/main.py lines 867-876) and the settings block
(conflict target `user_id`, lines 1029-1046).  Never raises. -/
def upsertOnKey (getKey : ρ → Int) (k : Int) (upd : ρ → ρ) (ins : ρ)
    (tbl : List ρ) : List ρ :=
  if tbl.any (fun r => getKey r == k) then
    tbl.map (fun r => if getKey r == k then upd r else r)
  else
    tbl ++ [ins]

/-- Sequential processing of one entity collection: the `for` loop of a
per-entity block.  A raised error aborts the loop (and, in `sync`, the whole
request) but the statements already executed have autocommitted, so the
table state at the failure is returned. -/
def listPass (f : α → σ → σ × Option SyncErr) : List α → σ → σ × Option SyncErr
  | [], tbl => (tbl, none)
  | x :: xs, tbl =>
    match f x tbl with
    | (tbl1, none) => listPass f xs tbl1
    | (tbl1, some e) => (tbl1, some e)

/-! ## Per-entity merge blocks (src/main.py lines 838-1046).

Each block first executes `if not X.user_id: X.user_id = current_user.id`;
that mutation is dead code — every SQL statement uses `current_user.id`
directly and never reads the model field — so it is omitted here.  The
`upd` functions list exactly the `UPDATE ... SET` columns and the insert
rows exactly the `INSERT` columns of the corresponding block. -/

/-- Columns set by the categories `UPDATE` (lines 848-853). -/
def categoryUpdate (c : Category) (r : CategoryRow) : CategoryRow :=
  { r with name := c.name, description := c.description }

/-- Row built by the categories `INSERT` (lines 855-860). -/
def categoryInsertRow (uid : Int) (c : Category) : CategoryRow :=
  { id := c.id, user_id := uid, name := c.name, description := c.description }

/-- One iteration of the categories loop (lines 839-860). -/
def categoryMerge (uid : Int) (c : Category) (tbl : List CategoryRow) :
    List CategoryRow × Option SyncErr :=
  upsertMerge CategoryRow.id CategoryRow.user_id c.id uid
    (categoryUpdate c) (categoryInsertRow uid c) tbl

/-- Columns set by the activities `ON CONFLICT (id) DO UPDATE`
(lines 871-874): `date`, `activity`, `details` — neither `user_id` nor
`username` is updated. -/
def activityUpdate (a : Activity) (r : ActivityRow) : ActivityRow :=
  { r with date := a.date, activity := a.activity, details := a.details }

/-- Row built by the activities `INSERT` (lines 867-876). -/
def activityInsertRow (uid : Int) (a : Activity) : ActivityRow :=
  { id := a.id, user_id := uid, date := a.date, activity := a.activity,
    username := a.username, details := a.details }

/-- One iteration of the activities loop (lines 863-876).  The conflict
target is the global primary key `id` alone, so the updated row may belong
to any user. -/
def activityMerge (uid : Int) (a : Activity) (tbl : List ActivityRow) :
    List ActivityRow × Option SyncErr :=
  (upsertOnKey ActivityRow.id a.id (activityUpdate a) (activityInsertRow uid a) tbl,
    none)

/-- The pydantic `Product` model lets the client omit `purchase_price`,
`selling_price` or `reorder_level`, but their columns are `NOT NULL`
(src/main.py lines 328-331): writing such a record raises
`NotNullViolationError`. -/
def productHasNulls (p : Product) : Bool :=
  p.purchase_price.isNone || p.selling_price.isNone || p.reorder_level.isNone

/-- Columns set by the products `UPDATE` (lines 888-897): everything except
`user_id` and `created_at`.  Reached only when the NOT NULL check passed,
so the three `getD` defaults are never the stored value. -/
def productUpdate (p : Product) (r : ProductRow) : ProductRow :=
  { r with
    name := p.name, category_id := p.category_id,
    description := p.description, purchase_price := p.purchase_price.getD 0,
    selling_price := p.selling_price.getD 0, stock := p.stock,
    reorder_level := p.reorder_level.getD 0, unit := p.unit,
    barcode := p.barcode }

/-- Row built by the products `INSERT` (lines 899-907): `created_at` is
`make_timezone_naive(product.created_at) or server_time`, i.e. the
client-supplied value when present, the server time only when absent.
Reached only when the NOT NULL check passed. -/
def productInsertRow (uid : Int) (serverTime : Timestamp) (p : Product) : ProductRow :=
  { id := p.id, user_id := uid, name := p.name, category_id := p.category_id,
    description := p.description, purchase_price := p.purchase_price.getD 0,
    selling_price := p.selling_price.getD 0, stock := p.stock,
    reorder_level := p.reorder_level.getD 0, unit := p.unit,
    barcode := p.barcode, created_at := p.created_at.getD serverTime }

/-- One iteration of the products loop (lines 879-907).  Whichever write the
branch takes, a record with a missing NOT NULL numeric field makes that
statement raise `NotNullViolationError` — before any unique-index check —
and the table is left unchanged. -/
def productMerge (uid : Int) (serverTime : Timestamp) (p : Product)
    (tbl : List ProductRow) : List ProductRow × Option SyncErr :=
  if productHasNulls p then
    (tbl, some SyncErr.notNullViolation)
  else
    upsertMerge ProductRow.id ProductRow.user_id p.id uid
      (productUpdate p) (productInsertRow uid serverTime p) tbl

theorem productMerge_nulls {uid : Int} {t : Timestamp} {p : Product}
    {tbl : List ProductRow} (h : productHasNulls p = true) :
    productMerge uid t p tbl = (tbl, some SyncErr.notNullViolation) := by
  unfold productMerge
  rw [h]
  rfl

theorem productMerge_nonull {uid : Int} {t : Timestamp} {p : Product}
    {tbl : List ProductRow} (h : productHasNulls p = false) :
    productMerge uid t p tbl =
      upsertMerge ProductRow.id ProductRow.user_id p.id uid
        (productUpdate p) (productInsertRow uid t p) tbl := by
  unfold productMerge
  rw [h]
  rfl

/-- Columns set by the suppliers `UPDATE` (lines 919-927). -/
def supplierUpdate (x : Supplier) (r : SupplierRow) : SupplierRow :=
  { r with
    name := x.name, contact_person := x.contact_person, phone := x.phone,
    email := x.email, address := x.address, products := x.products,
    payment_terms := x.payment_terms }

/-- Row built by the suppliers `INSERT` (lines 929-936). -/
def supplierInsertRow (uid : Int) (x : Supplier) : SupplierRow :=
  { id := x.id, user_id := uid, name := x.name,
    contact_person := x.contact_person, phone := x.phone, email := x.email,
    address := x.address, products := x.products,
    payment_terms := x.payment_terms }

/-- One iteration of the suppliers loop (lines 910-936). -/
def supplierMerge (uid : Int) (x : Supplier) (tbl : List SupplierRow) :
    List SupplierRow × Option SyncErr :=
  upsertMerge SupplierRow.id SupplierRow.user_id x.id uid
    (supplierUpdate x) (supplierInsertRow uid x) tbl

/-- Columns set by the sales `UPDATE` (lines 948-955). -/
def saleUpdate (x : Sale) (r : SaleRow) : SaleRow :=
  { r with
    date := x.date, invoice_number := x.invoice_number,
    customer := x.customer, items := x.items,
    payment_method := x.payment_method, notes := x.notes }

/-- Row built by the sales `INSERT` (lines 957-965). -/
def saleInsertRow (uid : Int) (x : Sale) : SaleRow :=
  { id := x.id, user_id := uid, date := x.date,
    invoice_number := x.invoice_number, customer := x.customer,
    items := x.items, payment_method := x.payment_method, notes := x.notes }

/-- One iteration of the sales loop (lines 939-965). -/
def saleMerge (uid : Int) (x : Sale) (tbl : List SaleRow) :
    List SaleRow × Option SyncErr :=
  upsertMerge SaleRow.id SaleRow.user_id x.id uid
    (saleUpdate x) (saleInsertRow uid x) tbl

/-- Columns set by the purchases `UPDATE` (lines 977-984). -/
def purchaseUpdate (x : Purchase) (r : PurchaseRow) : PurchaseRow :=
  { r with
    date := x.date, reference_number := x.reference_number,
    supplier_id := x.supplier_id, items := x.items,
    payment_method := x.payment_method, notes := x.notes }

/-- Row built by the purchases `INSERT` (lines 986-994). -/
def purchaseInsertRow (uid : Int) (x : Purchase) : PurchaseRow :=
  { id := x.id, user_id := uid, date := x.date,
    reference_number := x.reference_number, supplier_id := x.supplier_id,
    items := x.items, payment_method := x.payment_method, notes := x.notes }

/-- One iteration of the purchases loop (lines 968-994). -/
def purchaseMerge (uid : Int) (x : Purchase) (tbl : List PurchaseRow) :
    List PurchaseRow × Option SyncErr :=
  upsertMerge PurchaseRow.id PurchaseRow.user_id x.id uid
    (purchaseUpdate x) (purchaseInsertRow uid x) tbl

/-- Columns set by the adjustments `UPDATE` (lines 1006-1013). -/
def adjustmentUpdate (x : Adjustment) (r : AdjustmentRow) : AdjustmentRow :=
  { r with
    date := x.date, product_id := x.product_id, type := x.type,
    quantity := x.quantity, reason := x.reason, username := x.username }

/-- Row built by the adjustments `INSERT` (lines 1015-1022). -/
def adjustmentInsertRow (uid : Int) (x : Adjustment) : AdjustmentRow :=
  { id := x.id, user_id := uid, date := x.date, product_id := x.product_id,
    type := x.type, quantity := x.quantity, reason := x.reason,
    username := x.username }

/-- One iteration of the adjustments loop (lines 997-1022). -/
def adjustmentMerge (uid : Int) (x : Adjustment) (tbl : List AdjustmentRow) :
    List AdjustmentRow × Option SyncErr :=
  upsertMerge AdjustmentRow.id AdjustmentRow.user_id x.id uid
    (adjustmentUpdate x) (adjustmentInsertRow uid x) tbl

/-- Columns set by the settings `ON CONFLICT (user_id) DO UPDATE`
(lines 1034-1041), including `updated_at = CURRENT_TIMESTAMP`. -/
def settingsUpdate (t : Timestamp) (x : Settings) (r : SettingsRow) : SettingsRow :=
  { r with
    business_name := x.business_name, currency := x.currency,
    tax_rate := x.tax_rate, low_stock_threshold := x.low_stock_threshold,
    invoicePrefix := x.invoicePrefix, purchasePrefix := x.purchasePrefix,
    updated_at := t }

/-- Row built by the settings `INSERT` (lines 1029-1046); `updated_at`
takes its `CURRENT_TIMESTAMP` column default. -/
def settingsInsertRow (uid : Int) (t : Timestamp) (x : Settings) : SettingsRow :=
  { user_id := uid, business_name := x.business_name, currency := x.currency,
    tax_rate := x.tax_rate, low_stock_threshold := x.low_stock_threshold,
    invoicePrefix := x.invoicePrefix, purchasePrefix := x.purchasePrefix,
    updated_at := t }

/-- The settings upsert (lines 1025-1046). -/
def settingsMerge (uid : Int) (t : Timestamp) (x : Settings)
    (tbl : List SettingsRow) : List SettingsRow :=
  upsertOnKey SettingsRow.user_id uid (settingsUpdate t x)
    (settingsInsertRow uid t x) tbl

/-! ## Change-set collection (src/main.py lines 1048-1077). -/

/-- Insert into a list sorted by `le` (insertion step of a stable sort,
modelling the row order produced by `ORDER BY`). -/
def insertSortedBy (le : α → α → Bool) (x : α) : List α → List α
  | [] => [x]
  | y :: ys => if le x y then x :: y :: ys else y :: insertSortedBy le x ys

/-- Stable insertion sort, modelling `ORDER BY`. -/
def sortBy (le : α → α → Bool) : List α → List α
  | [] => []
  | x :: xs => insertSortedBy le x (sortBy le xs)

/-- `record_to_product` (lines 1109-1123). -/
def record_to_product (r : ProductRow) : Product :=
  { id := r.id, user_id := some r.user_id, name := r.name,
    category_id := r.category_id, description := r.description,
    purchase_price := some r.purchase_price,
    selling_price := some r.selling_price,
    stock := r.stock, reorder_level := some r.reorder_level, unit := r.unit,
    barcode := r.barcode, created_at := some r.created_at }

/-- `record_to_category` (lines 1125-1131). -/
def record_to_category (r : CategoryRow) : Category :=
  { id := r.id, user_id := some r.user_id, name := r.name,
    description := r.description }

/-- `record_to_supplier` (lines 1133-1144). -/
def record_to_supplier (r : SupplierRow) : Supplier :=
  { id := r.id, user_id := some r.user_id, name := r.name,
    contact_person := r.contact_person, phone := r.phone, email := r.email,
    address := r.address, products := r.products,
    payment_terms := r.payment_terms }

/-- `record_to_sale` (lines 1146-1157). -/
def record_to_sale (r : SaleRow) : Sale :=
  { id := r.id, user_id := some r.user_id, date := r.date,
    invoice_number := r.invoice_number, customer := r.customer,
    items := r.items, payment_method := r.payment_method, notes := r.notes }

/-- `record_to_purchase` (lines 1159-1170). -/
def record_to_purchase (r : PurchaseRow) : Purchase :=
  { id := r.id, user_id := some r.user_id, date := r.date,
    reference_number := r.reference_number, supplier_id := r.supplier_id,
    items := r.items, payment_method := r.payment_method, notes := r.notes }

/-- `record_to_adjustment` (lines 1172-1182). -/
def record_to_adjustment (r : AdjustmentRow) : Adjustment :=
  { id := r.id, user_id := some r.user_id, date := r.date,
    product_id := r.product_id, type := r.type, quantity := r.quantity,
    reason := r.reason, username := r.username }

/-- `record_to_activity` (lines 1184-1192). -/
def record_to_activity (r : ActivityRow) : Activity :=
  { id := r.id, user_id := some r.user_id, date := r.date,
    activity := r.activity, username := r.username, details := r.details }

/-- `record_to_settings` (lines 1194-1203). -/
def record_to_settings (r : SettingsRow) : Settings :=
  { user_id := some r.user_id, business_name := r.business_name,
    currency := r.currency, tax_rate := r.tax_rate,
    low_stock_threshold := r.low_stock_threshold,
    invoicePrefix := r.invoicePrefix, purchasePrefix := r.purchasePrefix }

/-- The read-back phase (src/main.py lines 1048-1077): every query selects
`WHERE user_id = $1` with no timestamp condition — `last_sync_time` from
the request is never consulted — ordered by `id` (activities: by `date`
descending, `LIMIT 100`).  `result.last_sync_time` was already set to
`server_time` at line 835. -/
def collect (uid : Int) (t : Timestamp) (s : Store) : SyncData :=
  { last_sync_time := some t
    products :=
      (sortBy (fun a b => a.id ≤ b.id)
        (s.products.filter (fun r => r.user_id == uid))).map record_to_product
    categories :=
      (sortBy (fun a b => a.id ≤ b.id)
        (s.categories.filter (fun r => r.user_id == uid))).map record_to_category
    suppliers :=
      (sortBy (fun a b => a.id ≤ b.id)
        (s.suppliers.filter (fun r => r.user_id == uid))).map record_to_supplier
    sales :=
      (sortBy (fun a b => a.id ≤ b.id)
        (s.sales.filter (fun r => r.user_id == uid))).map record_to_sale
    purchases :=
      (sortBy (fun a b => a.id ≤ b.id)
        (s.purchases.filter (fun r => r.user_id == uid))).map record_to_purchase
    adjustments :=
      (sortBy (fun a b => a.id ≤ b.id)
        (s.adjustments.filter (fun r => r.user_id == uid))).map record_to_adjustment
    activities :=
      ((sortBy (fun a b => b.date ≤ a.date)
        (s.activities.filter (fun r => r.user_id == uid))).take 100).map record_to_activity
    settings := (s.settings.find? (fun r => r.user_id == uid)).map record_to_settings }

/-! ## The sync orchestration (src/main.py lines 823-1101). -/

/-- The optional settings upsert at the end of the merge phase
(`if sync_data.settings:`, src/main.py lines 1025-1046). -/
def settingsFinal (uid : Int) (t : Timestamp) (d : SyncData)
    (tbl : List SettingsRow) : List SettingsRow :=
  match d.settings with
  | some st => settingsMerge uid t st tbl
  | none => tbl

/-- The merge phase of `sync`, in the order the handler executes it:
categories, activities, products, suppliers, sales, purchases, adjustments,
settings.  There is no enclosing transaction, so on an error the store
keeps every write executed before the raising statement. -/
def mergeAll (uid : Int) (t : Timestamp) (d : SyncData) (s : Store) :
    Store × Option SyncErr :=
  match listPass (categoryMerge uid) d.categories s.categories with
  | (lc, some e) => ({ s with categories := lc }, some e)
  | (lc, none) =>
  match listPass (activityMerge uid) d.activities s.activities with
  | (la, some e) => ({ s with categories := lc, activities := la }, some e)
  | (la, none) =>
  match listPass (productMerge uid t) d.products s.products with
  | (lp, some e) =>
      ({ s with categories := lc, activities := la, products := lp }, some e)
  | (lp, none) =>
  match listPass (supplierMerge uid) d.suppliers s.suppliers with
  | (lsup, some e) =>
      ({ s with
        categories := lc, activities := la, products := lp,
        suppliers := lsup }, some e)
  | (lsup, none) =>
  match listPass (saleMerge uid) d.sales s.sales with
  | (lsa, some e) =>
      ({ s with
        categories := lc, activities := la, products := lp,
        suppliers := lsup, sales := lsa }, some e)
  | (lsa, none) =>
  match listPass (purchaseMerge uid) d.purchases s.purchases with
  | (lpu, some e) =>
      ({ s with
        categories := lc, activities := la, products := lp,
        suppliers := lsup, sales := lsa, purchases := lpu }, some e)
  | (lpu, none) =>
  match listPass (adjustmentMerge uid) d.adjustments s.adjustments with
  | (lad, some e) =>
      ({ s with
        categories := lc, activities := la, products := lp,
        suppliers := lsup, sales := lsa, purchases := lpu,
        adjustments := lad }, some e)
  | (lad, none) =>
  ({ s with
    categories := lc, activities := la, products := lp,
    suppliers := lsup, sales := lsa, purchases := lpu,
    adjustments := lad, settings := settingsFinal uid t d s.settings }, none)

/-- The `/sync` endpoint (src/main.py lines 823-1101) for an authenticated
caller `uid` at server transaction time `t`: merge every incoming entity
collection, then read the full change-set back.  The first component is the
state the database retains (statements autocommit; there is no transaction),
the second the HTTP outcome. -/
def sync (uid : Int) (t : Timestamp) (d : SyncData) (s : Store) :
    Store × Except SyncErr SyncData :=
  match mergeAll uid t d s with
  | (s2, some e) => (s2, Except.error e)
  | (s2, none) => (s2, Except.ok (collect uid t s2))

/-! ## Generic lemmas about the merge primitives -/

section MergeLemmas

variable {ρ : Type} {α : Type}

theorem upsertMerge_found (getId getUid : ρ → Int) (rid uid : Int)
    (upd : ρ → ρ) (ins : ρ) {tbl : List ρ} {e : ρ}
    (h : tbl.find? (matchesKey getId getUid rid uid) = some e) :
    upsertMerge getId getUid rid uid upd ins tbl =
      (tbl.map (fun r => if matchesKey getId getUid rid uid r then upd r else r),
        none) := by
  simp [upsertMerge, h]

theorem upsertMerge_inserted (getId getUid : ρ → Int) (rid uid : Int)
    (upd : ρ → ρ) (ins : ρ) {tbl : List ρ}
    (h : tbl.find? (matchesKey getId getUid rid uid) = none)
    (h2 : tbl.any (fun r => getId r == rid) = false) :
    upsertMerge getId getUid rid uid upd ins tbl = (tbl ++ [ins], none) := by
  simp [upsertMerge, h, h2]

theorem upsertMerge_conflict (getId getUid : ρ → Int) (rid uid : Int)
    (upd : ρ → ρ) (ins : ρ) {tbl : List ρ}
    (h : tbl.find? (matchesKey getId getUid rid uid) = none)
    (h2 : tbl.any (fun r => getId r == rid) = true) :
    upsertMerge getId getUid rid uid upd ins tbl =
      (tbl, some SyncErr.uniqueViolation) := by
  simp [upsertMerge, h, h2]

/-- A conditional rewrite map is the identity when every hit is a fixpoint. -/
theorem map_ite_eq_self {q : ρ → Bool} {f : ρ → ρ} {tbl : List ρ}
    (h : ∀ r ∈ tbl, q r = true → f r = r) :
    tbl.map (fun r => if q r then f r else r) = tbl := by
  induction tbl with
  | nil => rfl
  | cons a l ih =>
    simp only [List.map_cons, List.cons.injEq]
    refine ⟨?_, ih fun r hr hq => h r (List.mem_cons_of_mem a hr) hq⟩
    by_cases hq : q a = true
    · simp [hq, h a (List.mem_cons_self a l) hq]
    · simp [hq]

/-- Rows missed by the condition survive a conditional rewrite map. -/
theorem mem_map_ite_of_neg {q : ρ → Bool} {f : ρ → ρ} {tbl : List ρ} {r : ρ}
    (hr : r ∈ tbl) (hq : q r = false) :
    r ∈ tbl.map (fun r => if q r then f r else r) := by
  have := List.mem_map_of_mem (fun r => if q r then f r else r) hr
  simpa [hq] using this

/-- The first hit of a conditional rewrite map, when the condition is
invariant under the rewrite. -/
theorem find?_map_ite {q : ρ → Bool} {f : ρ → ρ}
    (hq : ∀ r, q (f r) = q r) {tbl : List ρ} {e : ρ}
    (h : tbl.find? q = some e) :
    (tbl.map (fun r => if q r then f r else r)).find? q = some (f e) := by
  induction tbl with
  | nil => simp at h
  | cons a l ih =>
    by_cases ha : q a = true
    · rw [List.find?_cons_of_pos _ ha] at h
      cases h
      simp only [List.map_cons, if_pos ha]
      exact List.find?_cons_of_pos _ (by rw [hq]; exact ha)
    · rw [List.find?_cons_of_neg _ ha] at h
      simp only [List.map_cons, if_neg ha]
      rw [List.find?_cons_of_neg _ ha]
      exact ih h

/-- Rows whose primary key differs from the incoming id are untouched by a
merge step. -/
theorem upsertMerge_frame (getId getUid : ρ → Int) (rid uid : Int)
    (upd : ρ → ρ) (ins : ρ) {tbl : List ρ} {r : ρ}
    (hr : r ∈ tbl) (hne : getId r ≠ rid) :
    r ∈ (upsertMerge getId getUid rid uid upd ins tbl).1 := by
  have hkey : matchesKey getId getUid rid uid r = false := by
    simp [matchesKey, hne]
  unfold upsertMerge
  cases hfind : tbl.find? (matchesKey getId getUid rid uid) with
  | some e => exact mem_map_ite_of_neg hr hkey
  | none =>
    by_cases h2 : tbl.any (fun r => getId r == rid) = true
    · simpa [h2] using hr
    · simp only [Bool.not_eq_true] at h2
      simp only [h2]
      exact List.mem_append_left _ hr

/-- A merge step never deletes a row: its id and owner survive. -/
theorem upsertMerge_keepIds (getId getUid : ρ → Int) (rid uid : Int)
    (upd : ρ → ρ) (ins : ρ)
    (hupd : ∀ r, getId (upd r) = getId r ∧ getUid (upd r) = getUid r)
    {tbl : List ρ} {r : ρ} (hr : r ∈ tbl) :
    ∃ r2 ∈ (upsertMerge getId getUid rid uid upd ins tbl).1,
      getId r2 = getId r ∧ getUid r2 = getUid r := by
  unfold upsertMerge
  cases hfind : tbl.find? (matchesKey getId getUid rid uid) with
  | some e =>
    refine ⟨if matchesKey getId getUid rid uid r then upd r else r,
      List.mem_map_of_mem _ hr, ?_⟩
    by_cases hk : matchesKey getId getUid rid uid r = true
    · simp [hk, hupd r]
    · simp [hk]
  | none =>
    by_cases h2 : tbl.any (fun r => getId r == rid) = true
    · exact ⟨r, by simpa [h2] using hr, rfl, rfl⟩
    · simp only [Bool.not_eq_true] at h2
      simp only [h2]
      exact ⟨r, List.mem_append_left _ hr, rfl, rfl⟩

/-- After a successful merge step the incoming record is present: some row
carries its id and the caller's user id. -/
theorem upsertMerge_present (getId getUid : ρ → Int) (rid uid : Int)
    (upd : ρ → ρ) (ins : ρ)
    (hupd : ∀ r, getId (upd r) = getId r ∧ getUid (upd r) = getUid r)
    (hins : getId ins = rid ∧ getUid ins = uid)
    {tbl tbl2 : List ρ}
    (h : upsertMerge getId getUid rid uid upd ins tbl = (tbl2, none)) :
    ∃ r ∈ tbl2, getId r = rid ∧ getUid r = uid := by
  cases hfind : tbl.find? (matchesKey getId getUid rid uid) with
  | some e =>
    rw [upsertMerge_found getId getUid rid uid upd ins hfind,
      Prod.mk.injEq] at h
    obtain ⟨h1, -⟩ := h
    subst h1
    have he := List.find?_some hfind
    have hmem := List.mem_of_find?_eq_some hfind
    simp only [matchesKey, Bool.and_eq_true, beq_iff_eq] at he
    refine ⟨upd e, ?_, ?_, ?_⟩
    · have := List.mem_map_of_mem
        (fun r => if matchesKey getId getUid rid uid r then upd r else r) hmem
      simpa [matchesKey, he.1, he.2] using this
    · rw [(hupd e).1]; exact he.1
    · rw [(hupd e).2]; exact he.2
  | none =>
    by_cases h2 : tbl.any (fun r => getId r == rid) = true
    · rw [upsertMerge_conflict getId getUid rid uid upd ins hfind h2] at h
      simp at h
    · have h2f : tbl.any (fun r => getId r == rid) = false := by
        simpa using h2
      rw [upsertMerge_inserted getId getUid rid uid upd ins hfind h2f,
        Prod.mk.injEq] at h
      obtain ⟨h1, -⟩ := h
      subst h1
      exact ⟨ins, by simp, hins.1, hins.2⟩

/-- A record is stably applied to a table: some row matches its key and every
matching row is a fixpoint of its update. -/
def StableOn (q : ρ → Bool) (f : ρ → ρ) (tbl : List ρ) : Prop :=
  (∃ r ∈ tbl, q r = true) ∧ ∀ r ∈ tbl, q r = true → f r = r

theorem upsertMerge_stable (getId getUid : ρ → Int) (rid uid : Int)
    (upd : ρ → ρ) (ins : ρ)
    (hq : ∀ r, matchesKey getId getUid rid uid (upd r) =
      matchesKey getId getUid rid uid r)
    (hidem : ∀ r, upd (upd r) = upd r)
    (hinsq : matchesKey getId getUid rid uid ins = true)
    (hinsu : upd ins = ins)
    {tbl tbl2 : List ρ}
    (h : upsertMerge getId getUid rid uid upd ins tbl = (tbl2, none)) :
    StableOn (matchesKey getId getUid rid uid) upd tbl2 := by
  cases hfind : tbl.find? (matchesKey getId getUid rid uid) with
  | some e =>
    rw [upsertMerge_found getId getUid rid uid upd ins hfind,
      Prod.mk.injEq] at h
    obtain ⟨h1, -⟩ := h
    subst h1
    have he := List.find?_some hfind
    have hmem := List.mem_of_find?_eq_some hfind
    constructor
    · refine ⟨upd e, ?_, by rw [hq]; exact he⟩
      have := List.mem_map_of_mem
        (fun r => if matchesKey getId getUid rid uid r then upd r else r) hmem
      simpa [he] using this
    · intro r hr hqr
      obtain ⟨r0, hr0, him⟩ := List.mem_map.mp hr
      by_cases h0 : matchesKey getId getUid rid uid r0 = true
      · rw [if_pos h0] at him
        rw [← him]
        exact hidem r0
      · rw [if_neg h0] at him
        rw [← him] at hqr
        exact absurd hqr h0
  | none =>
    by_cases h2 : tbl.any (fun r => getId r == rid) = true
    · rw [upsertMerge_conflict getId getUid rid uid upd ins hfind h2] at h
      simp at h
    · have h2f : tbl.any (fun r => getId r == rid) = false := by
        simpa using h2
      rw [upsertMerge_inserted getId getUid rid uid upd ins hfind h2f,
        Prod.mk.injEq] at h
      obtain ⟨h1, -⟩ := h
      subst h1
      refine ⟨⟨ins, by simp, hinsq⟩, ?_⟩
      intro r hr hqr
      rcases List.mem_append.mp hr with hin | hin
      · exact absurd hqr (by
          have := List.find?_eq_none.mp hfind r hin
          simpa using this)
      · rw [List.mem_singleton.mp hin]
        exact hinsu

theorem upsertMerge_preserves_stable (getId getUid : ρ → Int) (rid uid : Int)
    (upd : ρ → ρ) (ins : ρ) (q : ρ → Bool) (f : ρ → ρ)
    (hq : ∀ r, q r = true → getId r ≠ rid)
    (hupdid : ∀ r, getId (upd r) = getId r)
    (hinsid : getId ins = rid)
    {tbl : List ρ} (h : StableOn q f tbl) :
    StableOn q f (upsertMerge getId getUid rid uid upd ins tbl).1 := by
  obtain ⟨⟨w, hw, hwq⟩, hstab⟩ := h
  have hwkey : matchesKey getId getUid rid uid w = false := by
    simp [matchesKey, hq w hwq]
  cases hfind : tbl.find? (matchesKey getId getUid rid uid) with
  | some e =>
    rw [upsertMerge_found getId getUid rid uid upd ins hfind]
    constructor
    · exact ⟨w, mem_map_ite_of_neg hw hwkey, hwq⟩
    · intro r hr hqr
      obtain ⟨r0, hr0, him⟩ := List.mem_map.mp hr
      by_cases h0 : matchesKey getId getUid rid uid r0 = true
      · rw [if_pos h0] at him
        exfalso
        apply hq r hqr
        rw [← him, hupdid r0]
        have := h0
        simp only [matchesKey, Bool.and_eq_true, beq_iff_eq] at this
        exact this.1
      · rw [if_neg h0] at him
        rw [← him]
        exact hstab r0 hr0 (him ▸ hqr)
  | none =>
    by_cases h2 : tbl.any (fun r => getId r == rid) = true
    · rw [upsertMerge_conflict getId getUid rid uid upd ins hfind h2]
      exact ⟨⟨w, hw, hwq⟩, hstab⟩
    · have h2f : tbl.any (fun r => getId r == rid) = false := by
        simpa using h2
      rw [upsertMerge_inserted getId getUid rid uid upd ins hfind h2f]
      refine ⟨⟨w, List.mem_append_left _ hw, hwq⟩, ?_⟩
      intro r hr hqr
      rcases List.mem_append.mp hr with hin | hin
      · exact hstab r hin hqr
      · exfalso
        rw [List.mem_singleton.mp hin] at hqr
        exact hq ins hqr hinsid

theorem upsertMerge_of_stable (getId getUid : ρ → Int) (rid uid : Int)
    (upd : ρ → ρ) (ins : ρ) {tbl : List ρ}
    (h : StableOn (matchesKey getId getUid rid uid) upd tbl) :
    upsertMerge getId getUid rid uid upd ins tbl = (tbl, none) := by
  obtain ⟨⟨w, hw, hwq⟩, hstab⟩ := h
  cases hfind : tbl.find? (matchesKey getId getUid rid uid) with
  | none =>
    exact absurd hwq (by simpa using List.find?_eq_none.mp hfind w hw)
  | some e =>
    rw [upsertMerge_found getId getUid rid uid upd ins hfind,
      map_ite_eq_self hstab]

theorem upsertOnKey_frame (getKey : ρ → Int) (k : Int) (upd : ρ → ρ) (ins : ρ)
    {tbl : List ρ} {r : ρ} (hr : r ∈ tbl) (hne : getKey r ≠ k) :
    r ∈ upsertOnKey getKey k upd ins tbl := by
  unfold upsertOnKey
  by_cases h2 : tbl.any (fun r => getKey r == k) = true
  · rw [if_pos h2]
    exact mem_map_ite_of_neg hr (by simp [hne])
  · rw [if_neg h2]
    exact List.mem_append_left _ hr

theorem upsertOnKey_keepIds (getKey : ρ → Int) (k : Int) (upd : ρ → ρ)
    (ins : ρ) (getId getUid : ρ → Int)
    (hupd : ∀ r, getId (upd r) = getId r ∧ getUid (upd r) = getUid r)
    {tbl : List ρ} {r : ρ} (hr : r ∈ tbl) :
    ∃ r2 ∈ upsertOnKey getKey k upd ins tbl,
      getId r2 = getId r ∧ getUid r2 = getUid r := by
  unfold upsertOnKey
  by_cases h2 : tbl.any (fun r => getKey r == k) = true
  · rw [if_pos h2]
    refine ⟨if getKey r == k then upd r else r, List.mem_map_of_mem _ hr, ?_⟩
    by_cases hk : (getKey r == k) = true
    · simp [hk, hupd r]
    · simp [hk]
  · rw [if_neg h2]
    exact ⟨r, List.mem_append_left _ hr, rfl, rfl⟩

theorem upsertOnKey_stable (getKey : ρ → Int) (k : Int) (upd : ρ → ρ)
    (ins : ρ)
    (hkupd : ∀ r, getKey (upd r) = getKey r)
    (hidem : ∀ r, upd (upd r) = upd r)
    (hinsk : getKey ins = k) (hinsu : upd ins = ins) (tbl : List ρ) :
    StableOn (fun r => getKey r == k) upd (upsertOnKey getKey k upd ins tbl) := by
  unfold upsertOnKey
  by_cases h2 : tbl.any (fun r => getKey r == k) = true
  · rw [if_pos h2]
    obtain ⟨w, hw, hwk⟩ := List.any_eq_true.mp h2
    constructor
    · refine ⟨upd w, ?_, by simpa [hkupd] using hwk⟩
      have := List.mem_map_of_mem
        (fun r => if getKey r == k then upd r else r) hw
      simpa [hwk] using this
    · intro r hr hqr
      obtain ⟨r0, hr0, him⟩ := List.mem_map.mp hr
      by_cases h0 : (getKey r0 == k) = true
      · rw [if_pos h0] at him
        rw [← him]
        exact hidem r0
      · rw [if_neg h0] at him
        rw [← him] at hqr
        exact absurd hqr h0
  · rw [if_neg h2]
    refine ⟨⟨ins, by simp, by simp [hinsk]⟩, ?_⟩
    intro r hr hqr
    rcases List.mem_append.mp hr with hin | hin
    · exact absurd (List.any_eq_true.mpr ⟨r, hin, hqr⟩) h2
    · rw [List.mem_singleton.mp hin]
      exact hinsu

theorem upsertOnKey_preserves_stable (getKey : ρ → Int) (k : Int)
    (upd : ρ → ρ) (ins : ρ) (q : ρ → Bool) (f : ρ → ρ)
    (hq : ∀ r, q r = true → getKey r ≠ k)
    (hkupd : ∀ r, getKey (upd r) = getKey r)
    (hinsk : getKey ins = k)
    {tbl : List ρ} (h : StableOn q f tbl) :
    StableOn q f (upsertOnKey getKey k upd ins tbl) := by
  obtain ⟨⟨w, hw, hwq⟩, hstab⟩ := h
  unfold upsertOnKey
  by_cases h2 : tbl.any (fun r => getKey r == k) = true
  · rw [if_pos h2]
    constructor
    · exact ⟨w, mem_map_ite_of_neg hw (by simp [hq w hwq]), hwq⟩
    · intro r hr hqr
      obtain ⟨r0, hr0, him⟩ := List.mem_map.mp hr
      by_cases h0 : (getKey r0 == k) = true
      · rw [if_pos h0] at him
        exfalso
        apply hq r hqr
        rw [← him, hkupd r0]
        exact beq_iff_eq.mp h0
      · rw [if_neg h0] at him
        rw [← him]
        exact hstab r0 hr0 (him ▸ hqr)
  · rw [if_neg h2]
    refine ⟨⟨w, List.mem_append_left _ hw, hwq⟩, ?_⟩
    intro r hr hqr
    rcases List.mem_append.mp hr with hin | hin
    · exact hstab r hin hqr
    · exfalso
      rw [List.mem_singleton.mp hin] at hqr
      exact hq ins hqr hinsk

theorem upsertOnKey_of_stable (getKey : ρ → Int) (k : Int) (upd : ρ → ρ)
    (ins : ρ) {tbl : List ρ}
    (h : StableOn (fun r => getKey r == k) upd tbl) :
    upsertOnKey getKey k upd ins tbl = tbl := by
  obtain ⟨⟨w, hw, hwq⟩, hstab⟩ := h
  have hany : tbl.any (fun r => getKey r == k) = true :=
    List.any_eq_true.mpr ⟨w, hw, hwq⟩
  unfold upsertOnKey
  rw [if_pos hany]
  exact map_ite_eq_self hstab


/-- A witness for the condition yields a hit for `find?`. -/
theorem exists_find?_of_mem {q : ρ → Bool} {tbl : List ρ}
    (h : ∃ r ∈ tbl, q r = true) : ∃ e, tbl.find? q = some e := by
  cases hf : tbl.find? q with
  | some e => exact ⟨e, rfl⟩
  | none =>
    obtain ⟨r, hr, hq⟩ := h
    exact absurd hq (by simpa using List.find?_eq_none.mp hf r hr)

/-- A later conditional rewrite absorbs an earlier one on the same
condition. -/
theorem map_ite_absorb {q : ρ → Bool} {f1 f2 : ρ → ρ} {tbl : List ρ}
    (hq : ∀ r, q (f1 r) = q r) (habs : ∀ r, f2 (f1 r) = f2 r) :
    (tbl.map (fun r => if q r then f1 r else r)).map
        (fun r => if q r then f2 r else r) =
      tbl.map (fun r => if q r then f2 r else r) := by
  induction tbl with
  | nil => rfl
  | cons a l ih =>
    simp only [List.map_cons, List.cons.injEq]
    refine ⟨?_, ih⟩
    by_cases ha : q a = true
    · simp [ha, hq, habs]
    · simp [ha]

/-- Conditional rewrites on disjoint conditions commute. -/
theorem map_ite_comm {q1 q2 : ρ → Bool} {f1 f2 : ρ → ρ} {tbl : List ρ}
    (hdisj : ∀ r, q1 r = true → q2 r = false)
    (h12 : ∀ r, q1 (f2 r) = q1 r) (h21 : ∀ r, q2 (f1 r) = q2 r) :
    (tbl.map (fun r => if q1 r then f1 r else r)).map
        (fun r => if q2 r then f2 r else r) =
      (tbl.map (fun r => if q2 r then f2 r else r)).map
        (fun r => if q1 r then f1 r else r) := by
  induction tbl with
  | nil => rfl
  | cons a l ih =>
    simp only [List.map_cons, List.cons.injEq]
    refine ⟨?_, ih⟩
    by_cases h1 : q1 a = true
    · have h2 : q2 a = false := hdisj a h1
      simp [h1, h2, h21, h12]
    · by_cases h2 : q2 a = true
      · simp [h1, h2, h12, h21]
      · simp [h1, h2]

/-- A conditional rewrite on a disjoint condition does not change what
`find?` sees. -/
theorem find?_map_ite_disjoint {p q : ρ → Bool} {f : ρ → ρ} {tbl : List ρ}
    (hpf : ∀ r, p (f r) = p r) (hdisj : ∀ r, p r = true → q r = false) :
    (tbl.map (fun r => if q r then f r else r)).find? p = tbl.find? p := by
  induction tbl with
  | nil => rfl
  | cons a l ih =>
    simp only [List.map_cons]
    by_cases hp : p a = true
    · have hq : q a = false := hdisj a hp
      rw [if_neg (by simp [hq])]
      rw [List.find?_cons_of_pos _ hp, List.find?_cons_of_pos _ hp]
    · by_cases hq : q a = true
      · rw [if_pos hq,
          List.find?_cons_of_neg _ (by rw [hpf]; exact hp),
          List.find?_cons_of_neg _ hp]
        exact ih
      · rw [if_neg hq, List.find?_cons_of_neg _ hp,
          List.find?_cons_of_neg _ hp]
        exact ih

/-- A conditional rewrite that preserves a predicate does not change `any`. -/
theorem any_map_ite {p q : ρ → Bool} {f : ρ → ρ} {tbl : List ρ}
    (hpf : ∀ r, p (f r) = p r) :
    (tbl.map (fun r => if q r then f r else r)).any p = tbl.any p := by
  induction tbl with
  | nil => rfl
  | cons a l ih =>
    simp only [List.map_cons, List.any_cons, ih]
    by_cases hq : q a = true
    · simp [hq, hpf]
    · simp [hq]

/-- With a matching row present, a merge step is exactly the update. -/
theorem upsertMerge_update_of_present (getId getUid : ρ → Int) (rid uid : Int)
    (upd : ρ → ρ) (ins : ρ) {tbl : List ρ}
    (h : ∃ r ∈ tbl, matchesKey getId getUid rid uid r = true) :
    upsertMerge getId getUid rid uid upd ins tbl =
      (tbl.map (fun r => if matchesKey getId getUid rid uid r then upd r else r),
        none) := by
  obtain ⟨e, hf⟩ := exists_find?_of_mem h
  exact upsertMerge_found getId getUid rid uid upd ins hf

/-- A merge step preserves the presence of rows satisfying any predicate its
update preserves. -/
theorem upsertMerge_keeps_q (getId getUid : ρ → Int) (rid uid : Int)
    (upd : ρ → ρ) (ins : ρ) (q : ρ → Bool)
    (hq : ∀ r, q (upd r) = q r) {tbl : List ρ}
    (h : ∃ r ∈ tbl, q r = true) :
    ∃ r ∈ (upsertMerge getId getUid rid uid upd ins tbl).1, q r = true := by
  obtain ⟨w, hw, hwq⟩ := h
  unfold upsertMerge
  cases hfind : tbl.find? (matchesKey getId getUid rid uid) with
  | some e =>
    refine ⟨if matchesKey getId getUid rid uid w then upd w else w,
      List.mem_map_of_mem _ hw, ?_⟩
    by_cases hk : matchesKey getId getUid rid uid w = true
    · simp [hk, hq, hwq]
    · simp [hk, hwq]
  | none =>
    by_cases h2 : tbl.any (fun r => getId r == rid) = true
    · exact ⟨w, by simpa [h2] using hw, hwq⟩
    · simp only [Bool.not_eq_true] at h2
      simp only [h2]
      exact ⟨w, List.mem_append_left _ hw, hwq⟩

/-- A successful merge step for a key absorbs a prior rewrite of the same
key rows, when the later update absorbs the earlier one. -/
theorem upsertMerge_absorb_updateBy (getId getUid : ρ → Int) (rid uid : Int)
    (updX updY : ρ → ρ) (insY : ρ)
    (hx : ∀ r, matchesKey getId getUid rid uid (updX r) =
      matchesKey getId getUid rid uid r)
    (habs : ∀ r, updY (updX r) = updY r)
    {tbl t1 : List ρ}
    (h : upsertMerge getId getUid rid uid updY insY tbl = (t1, none)) :
    upsertMerge getId getUid rid uid updY insY
        (tbl.map (fun r =>
          if matchesKey getId getUid rid uid r then updX r else r)) =
      (t1, none) := by
  cases hfind : tbl.find? (matchesKey getId getUid rid uid) with
  | some e =>
    rw [upsertMerge_found getId getUid rid uid updY insY hfind] at h
    rw [upsertMerge_found getId getUid rid uid updY insY
      (@find?_map_ite _ _ updX hx _ _ hfind)]
    rw [Prod.mk.injEq] at h
    rw [← h.1, map_ite_absorb hx habs]
  | none =>
    rw [map_ite_eq_self (fun r hr hq => absurd hq (by
      simpa using List.find?_eq_none.mp hfind r hr))]
    exact h

/-- A merge step for one key commutes with a rewrite of rows of a different
key, with the same error outcome. -/
theorem upsertMerge_commute_updateBy (getId getUid : ρ → Int)
    (ridY uid : Int) (updY : ρ → ρ) (insY : ρ) (q : ρ → Bool) (f : ρ → ρ)
    (hqid : ∀ r, q r = true → (getId r == ridY) = false)
    (hfid : ∀ r, getId (f r) = getId r ∧ getUid (f r) = getUid r)
    (hyq : ∀ r, q (updY r) = q r)
    (hinsq : q insY = false)
    {tbl t1 : List ρ} {err : Option SyncErr}
    (h : upsertMerge getId getUid ridY uid updY insY tbl = (t1, err)) :
    upsertMerge getId getUid ridY uid updY insY
        (tbl.map (fun r => if q r then f r else r)) =
      (t1.map (fun r => if q r then f r else r), err) := by
  have hpf : ∀ r, matchesKey getId getUid ridY uid (f r) =
      matchesKey getId getUid ridY uid r := by
    intro r
    simp [matchesKey, (hfid r).1, (hfid r).2]
  have hdisj : ∀ r, matchesKey getId getUid ridY uid r = true → q r = false := by
    intro r hr
    by_contra hq
    simp only [Bool.not_eq_false] at hq
    have h0 := hqid r hq
    simp only [matchesKey, Bool.and_eq_true] at hr
    rw [hr.1] at h0
    exact absurd h0 (by simp)
  have hfind := @find?_map_ite_disjoint _ (matchesKey getId getUid ridY uid)
    q f tbl hpf hdisj
  have hdisj2 : ∀ r, q r = true → matchesKey getId getUid ridY uid r = false := by
    intro r hq
    simp [matchesKey, hqid r hq]
  have hany := @any_map_ite _ (fun r => getId r == ridY) q f tbl
    (fun r => by
      show (getId (f r) == ridY) = (getId r == ridY)
      rw [(hfid r).1])
  cases hf : tbl.find? (matchesKey getId getUid ridY uid) with
  | some e2 =>
    rw [upsertMerge_found getId getUid ridY uid updY insY hf] at h
    rw [upsertMerge_found getId getUid ridY uid updY insY
      (by rw [hfind]; exact hf)]
    rw [Prod.mk.injEq] at h
    obtain ⟨h1, h2⟩ := h
    rw [← h1, ← h2, map_ite_comm hdisj2 hyq hpf]
  | none =>
    by_cases h2 : tbl.any (fun r => getId r == ridY) = true
    · rw [upsertMerge_conflict getId getUid ridY uid updY insY hf h2] at h
      rw [upsertMerge_conflict getId getUid ridY uid updY insY
        (by rw [hfind]; exact hf) (by rw [hany]; exact h2)]
      rw [Prod.mk.injEq] at h
      rw [← h.1, ← h.2]
    · have h2f : tbl.any (fun r => getId r == ridY) = false := by simpa using h2
      rw [upsertMerge_inserted getId getUid ridY uid updY insY hf h2f] at h
      rw [upsertMerge_inserted getId getUid ridY uid updY insY
        (by rw [hfind]; exact hf) (by rw [hany]; exact h2f)]
      rw [Prod.mk.injEq] at h
      rw [← h.1, ← h.2, List.map_append]
      simp [hinsq]

/-- With a matching row present, an ON CONFLICT upsert is exactly the
update. -/
theorem upsertOnKey_update_of_present (getKey : ρ → Int) (k : Int)
    (upd : ρ → ρ) (ins : ρ) {tbl : List ρ}
    (h : ∃ r ∈ tbl, (getKey r == k) = true) :
    upsertOnKey getKey k upd ins tbl =
      tbl.map (fun r => if getKey r == k then upd r else r) := by
  obtain ⟨w, hw, hk⟩ := h
  unfold upsertOnKey
  rw [if_pos (List.any_eq_true.mpr ⟨w, hw, hk⟩)]

/-- An ON CONFLICT upsert preserves the presence of rows satisfying any
predicate its update preserves. -/
theorem upsertOnKey_keeps_q (getKey : ρ → Int) (k : Int) (upd : ρ → ρ)
    (ins : ρ) (q : ρ → Bool) (hq : ∀ r, q (upd r) = q r) {tbl : List ρ}
    (h : ∃ r ∈ tbl, q r = true) :
    ∃ r ∈ upsertOnKey getKey k upd ins tbl, q r = true := by
  obtain ⟨w, hw, hwq⟩ := h
  unfold upsertOnKey
  by_cases h2 : tbl.any (fun r => getKey r == k) = true
  · rw [if_pos h2]
    refine ⟨if getKey w == k then upd w else w, List.mem_map_of_mem _ hw, ?_⟩
    by_cases hk : (getKey w == k) = true
    · simp [hk, hq, hwq]
    · simp [hk, hwq]
  · rw [if_neg h2]
    exact ⟨w, List.mem_append_left _ hw, hwq⟩

/-- An ON CONFLICT upsert absorbs a prior rewrite of the same key rows. -/
theorem upsertOnKey_absorb_updateBy (getKey : ρ → Int) (k : Int)
    (updX updY : ρ → ρ) (insY : ρ)
    (hxk : ∀ r, getKey (updX r) = getKey r)
    (habs : ∀ r, updY (updX r) = updY r) (tbl : List ρ) :
    upsertOnKey getKey k updY insY
        (tbl.map (fun r => if getKey r == k then updX r else r)) =
      upsertOnKey getKey k updY insY tbl := by
  have hpres : ∀ r, ((getKey (updX r) == k) = (getKey r == k)) := by
    intro r
    rw [hxk]
  by_cases h2 : tbl.any (fun r => getKey r == k) = true
  · have h2m : (tbl.map (fun r => if getKey r == k then updX r else r)).any
        (fun r => getKey r == k) = true := by
      rw [any_map_ite hpres]
      exact h2
    unfold upsertOnKey
    rw [if_pos h2m, if_pos h2]
    exact map_ite_absorb hpres habs
  · rw [map_ite_eq_self (fun r hr hq =>
      absurd (List.any_eq_true.mpr ⟨r, hr, hq⟩) h2)]

/-- An ON CONFLICT upsert for one key commutes with a rewrite of rows of a
different key. -/
theorem upsertOnKey_commute_updateBy (getKey : ρ → Int) (kY : Int)
    (updY : ρ → ρ) (insY : ρ) (q : ρ → Bool) (f : ρ → ρ)
    (hdisj : ∀ r, q r = true → (getKey r == kY) = false)
    (hfk : ∀ r, getKey (f r) = getKey r)
    (hyq : ∀ r, q (updY r) = q r)
    (hinsq : q insY = false) (tbl : List ρ) :
    upsertOnKey getKey kY updY insY (tbl.map (fun r => if q r then f r else r)) =
      (upsertOnKey getKey kY updY insY tbl).map
        (fun r => if q r then f r else r) := by
  have hpres : ∀ r, ((getKey (f r) == kY) = (getKey r == kY)) := by
    intro r
    rw [hfk]
  have hany := @any_map_ite _ (fun r => getKey r == kY) q f tbl hpres
  unfold upsertOnKey
  by_cases h2 : tbl.any (fun r => getKey r == kY) = true
  · rw [if_pos (by rw [hany]; exact h2), if_pos h2]
    exact map_ite_comm hdisj hyq hpres
  · rw [if_neg (by rw [hany]; exact h2), if_neg h2, List.map_append]
    simp [hinsq]

/-- After an ON CONFLICT upsert the record's key is present in the table. -/
theorem upsertOnKey_present (getKey : ρ → Int) (k : Int) (upd : ρ → ρ)
    (ins : ρ) (hupd : ∀ r, getKey (upd r) = getKey r) (hins : getKey ins = k)
    (tbl : List ρ) :
    ∃ r ∈ upsertOnKey getKey k upd ins tbl, (getKey r == k) = true := by
  unfold upsertOnKey
  by_cases h2 : tbl.any (fun r => getKey r == k) = true
  · rw [if_pos h2]
    obtain ⟨w, hw, hk⟩ := List.any_eq_true.mp h2
    have hk2 : (getKey w == k) = true := hk
    refine ⟨if getKey w == k then upd w else w, List.mem_map_of_mem _ hw, ?_⟩
    rw [if_pos hk2, hupd w]
    exact hk2
  · rw [if_neg h2]
    exact ⟨ins, List.mem_append_right _ (List.mem_singleton.mpr rfl),
      by simp [hins]⟩

end MergeLemmas

/-! ## Lemmas about one per-entity loop (`listPass`) -/

section PassLemmas

variable {ρ : Type} {α : Type}

theorem listPass_cons_ok {g : α → List ρ → List ρ × Option SyncErr}
    {x : α} {xs : List α} {tbl tbl2 : List ρ}
    (h : listPass g (x :: xs) tbl = (tbl2, none)) :
    ∃ tbl1, g x tbl = (tbl1, none) ∧ listPass g xs tbl1 = (tbl2, none) := by
  simp only [listPass] at h
  cases hx : g x tbl with
  | mk tbl1 e =>
    rw [hx] at h
    cases e with
    | none => exact ⟨tbl1, rfl, h⟩
    | some e => simp at h

/-- Rows untouched by every iteration survive the loop. -/
theorem listPass_frame (g : α → List ρ → List ρ × Option SyncErr)
    (p : ρ → Prop) {xs : List α}
    (hg : ∀ x ∈ xs, ∀ tbl r, r ∈ tbl → p r → r ∈ (g x tbl).1)
    {tbl : List ρ} {r : ρ} (hr : r ∈ tbl) (hp : p r) :
    r ∈ (listPass g xs tbl).1 := by
  induction xs generalizing tbl with
  | nil => simpa [listPass] using hr
  | cons x xs ih =>
    simp only [listPass]
    cases hx : g x tbl with
    | mk tbl1 e =>
      have hr1 : r ∈ tbl1 := by
        have := hg x (List.mem_cons_self x xs) tbl r hr hp
        rwa [hx] at this
      cases e with
      | none => exact ih (fun y hy => hg y (List.mem_cons_of_mem x hy)) hr1
      | some e => exact hr1

/-- The loop never deletes a row: its id and owner survive. -/
theorem listPass_keepIds (g : α → List ρ → List ρ × Option SyncErr)
    (getId getUid : ρ → Int) {xs : List α}
    (hg : ∀ x ∈ xs, ∀ tbl r, r ∈ tbl →
      ∃ r2 ∈ (g x tbl).1, getId r2 = getId r ∧ getUid r2 = getUid r)
    {tbl : List ρ} {r : ρ} (hr : r ∈ tbl) :
    ∃ r2 ∈ (listPass g xs tbl).1, getId r2 = getId r ∧ getUid r2 = getUid r := by
  induction xs generalizing tbl r with
  | nil => exact ⟨r, by simpa [listPass] using hr, rfl, rfl⟩
  | cons x xs ih =>
    simp only [listPass]
    cases hx : g x tbl with
    | mk tbl1 e =>
      obtain ⟨r2, hr2, h1, h2⟩ := hg x (List.mem_cons_self x xs) tbl r hr
      rw [hx] at hr2
      cases e with
      | none =>
        obtain ⟨r3, hr3, h3, h4⟩ :=
          ih (fun y hy => hg y (List.mem_cons_of_mem x hy)) hr2
        exact ⟨r3, hr3, h3.trans h1, h4.trans h2⟩
      | some e => exact ⟨r2, hr2, h1, h2⟩

/-- After a successful loop every processed record is present in the table
under the caller's user id. -/
theorem listPass_present (g : α → List ρ → List ρ × Option SyncErr)
    (idOf : α → Int) (getId getUid : ρ → Int) (uid : Int) {xs : List α}
    (hpres : ∀ x ∈ xs, ∀ tbl tbl2, g x tbl = (tbl2, none) →
      ∃ r ∈ tbl2, getId r = idOf x ∧ getUid r = uid)
    (hkeep : ∀ x ∈ xs, ∀ tbl r, r ∈ tbl →
      ∃ r2 ∈ (g x tbl).1, getId r2 = getId r ∧ getUid r2 = getUid r)
    {tbl tbl2 : List ρ} (h : listPass g xs tbl = (tbl2, none)) :
    ∀ x ∈ xs, ∃ r ∈ tbl2, getId r = idOf x ∧ getUid r = uid := by
  induction xs generalizing tbl with
  | nil => intro x hx; simp at hx
  | cons x xs ih =>
    obtain ⟨tbl1, hx, hrest⟩ := listPass_cons_ok h
    intro y hy
    rcases List.mem_cons.mp hy with hy | hy
    · subst hy
      obtain ⟨r, hr, h1, h2⟩ := hpres y (List.mem_cons_self y xs) tbl tbl1 hx
      obtain ⟨r2, hr2, h3, h4⟩ := listPass_keepIds g getId getUid
        (fun z hz => hkeep z (List.mem_cons_of_mem _ hz)) hr
      rw [hrest] at hr2
      exact ⟨r2, hr2, h3.trans h1, h4.trans h2⟩
    · exact ih (fun z hz => hpres z (List.mem_cons_of_mem x hz))
        (fun z hz => hkeep z (List.mem_cons_of_mem x hz)) hrest y hy

theorem listPass_preserves_stable (g : α → List ρ → List ρ × Option SyncErr)
    (q : ρ → Bool) (f : ρ → ρ) {xs : List α}
    (hg : ∀ x ∈ xs, ∀ tbl, StableOn q f tbl → StableOn q f (g x tbl).1)
    {tbl : List ρ} (h : StableOn q f tbl) :
    StableOn q f (listPass g xs tbl).1 := by
  induction xs generalizing tbl with
  | nil => simpa [listPass] using h
  | cons x xs ih =>
    simp only [listPass]
    cases hx : g x tbl with
    | mk tbl1 e =>
      have h1 : StableOn q f tbl1 := by
        have := hg x (List.mem_cons_self x xs) tbl h
        rwa [hx] at this
      cases e with
      | none => exact ih (fun y hy => hg y (List.mem_cons_of_mem x hy)) h1
      | some e => exact h1

/-- Presence of a key is preserved across the whole loop when every
iteration preserves it, also on the error path. -/
theorem listPass_keeps_presence (g : α → List ρ → List ρ × Option SyncErr)
    (q : ρ → Bool)
    (hg : ∀ y tbl t1 e, g y tbl = (t1, e) → (∃ r ∈ tbl, q r = true) →
      ∃ r ∈ t1, q r = true)
    {xs : List α} {tbl : List ρ} (h : ∃ r ∈ tbl, q r = true) :
    ∃ r ∈ (listPass g xs tbl).1, q r = true := by
  induction xs generalizing tbl with
  | nil => simpa [listPass] using h
  | cons x xs ih =>
    simp only [listPass]
    cases hx : g x tbl with
    | mk tbl1 e =>
      have h1 := hg x tbl tbl1 e hx h
      cases e with
      | none => exact ih h1
      | some e => exact h1

/-- If some later record of the batch carries the id of `x`, a prior
rewrite of the rows of `x`'s key is absorbed by re-running the loop: the
record with that id overwrites those rows again. -/
theorem listPass_absorb (g : α → List ρ → List ρ × Option SyncErr)
    (idOf : α → Int) (keyOf : α → ρ → Bool) (updOf : α → ρ → ρ)
    (hconv : ∀ x y tbl t1, idOf y = idOf x → g y tbl = (t1, none) →
      g y (tbl.map (fun r => if keyOf x r then updOf x r else r)) = (t1, none))
    (hcomm : ∀ x y tbl t1, idOf y ≠ idOf x → g y tbl = (t1, none) →
      g y (tbl.map (fun r => if keyOf x r then updOf x r else r)) =
        (t1.map (fun r => if keyOf x r then updOf x r else r), none))
    {x : α} {xs : List α} {tbl tbl2 : List ρ}
    (hhit : ∃ y ∈ xs, idOf y = idOf x)
    (h : listPass g xs tbl = (tbl2, none)) :
    listPass g xs (tbl.map (fun r => if keyOf x r then updOf x r else r)) =
      (tbl2, none) := by
  induction xs generalizing tbl with
  | nil =>
    obtain ⟨y, hy, -⟩ := hhit
    simp at hy
  | cons z zs ih =>
    obtain ⟨tbl1, hz, hrest⟩ := listPass_cons_ok h
    by_cases hid : idOf z = idOf x
    · have hz2 := hconv x z tbl tbl1 hid hz
      simp only [listPass, hz2]
      exact hrest
    · have hz2 := hcomm x z tbl tbl1 hid hz
      simp only [listPass, hz2]
      have hhit2 : ∃ y ∈ zs, idOf y = idOf x := by
        obtain ⟨y, hy, hye⟩ := hhit
        rcases List.mem_cons.mp hy with hcase | hcase
        · exact absurd (hcase ▸ hye) hid
        · exact ⟨y, hcase, hye⟩
      exact ih hhit2 hrest

/-- Re-running a successful loop on its own result is the identity.  No
distinctness assumption on the batch is needed: a record whose id recurs
later in the batch is absorbed by the later occurrence
(`listPass_absorb`), a record whose id is last of its kind leaves the
final table stable for its key. -/
theorem listPass_idem2 (g : α → List ρ → List ρ × Option SyncErr)
    (idOf : α → Int) (keyOf : α → ρ → Bool) (updOf : α → ρ → ρ)
    (hstable : ∀ x tbl tbl1, g x tbl = (tbl1, none) →
      StableOn (keyOf x) (updOf x) tbl1)
    (hpresv : ∀ x y tbl, idOf y ≠ idOf x → StableOn (keyOf x) (updOf x) tbl →
      StableOn (keyOf x) (updOf x) (g y tbl).1)
    (hsucc : ∀ x tbl tbl1, g x tbl = (tbl1, none) →
      ∃ r ∈ tbl1, keyOf x r = true)
    (hupd : ∀ x tbl0 t0 tbl, g x tbl0 = (t0, none) →
      (∃ r ∈ tbl, keyOf x r = true) →
      g x tbl = (tbl.map (fun r => if keyOf x r then updOf x r else r), none))
    (hconv : ∀ x y tbl t1, idOf y = idOf x → g y tbl = (t1, none) →
      g y (tbl.map (fun r => if keyOf x r then updOf x r else r)) = (t1, none))
    (hcomm : ∀ x y tbl t1, idOf y ≠ idOf x → g y tbl = (t1, none) →
      g y (tbl.map (fun r => if keyOf x r then updOf x r else r)) =
        (t1.map (fun r => if keyOf x r then updOf x r else r), none))
    (hkeep : ∀ x y tbl t1 e2, g y tbl = (t1, e2) →
      (∃ r ∈ tbl, keyOf x r = true) → ∃ r ∈ t1, keyOf x r = true)
    {xs : List α} {tbl tbl2 : List ρ}
    (h : listPass g xs tbl = (tbl2, none)) :
    listPass g xs tbl2 = (tbl2, none) := by
  induction xs generalizing tbl with
  | nil => rfl
  | cons x xs ih =>
    obtain ⟨tbl1, hx, hrest⟩ := listPass_cons_ok h
    have hpres2 : ∃ r ∈ tbl2, keyOf x r = true := by
      have h1 := hsucc x tbl tbl1 hx
      have h2 : ∃ r ∈ (listPass g xs tbl1).1, keyOf x r = true :=
        listPass_keeps_presence g (keyOf x)
          (fun y tb t1 e hgy hp => hkeep x y tb t1 e hgy hp) h1
      rwa [hrest] at h2
    have hx2 : g x tbl2 =
        (tbl2.map (fun r => if keyOf x r then updOf x r else r), none) :=
      hupd x tbl tbl1 tbl2 hx hpres2
    have hrest2 : listPass g xs tbl2 = (tbl2, none) := ih hrest
    simp only [listPass, hx2]
    by_cases hhit : ∃ y ∈ xs, idOf y = idOf x
    · exact listPass_absorb g idOf keyOf updOf hconv hcomm hhit hrest2
    · push_neg at hhit
      have hst1 : StableOn (keyOf x) (updOf x) tbl1 := hstable x tbl tbl1 hx
      have hst2 : StableOn (keyOf x) (updOf x) tbl2 := by
        have := listPass_preserves_stable g (keyOf x) (updOf x)
          (fun y hy tb hs => hpresv x y tb (hhit y hy) hs) hst1
        rwa [hrest] at this
      rw [map_ite_eq_self hst2.2]
      exact hrest2

end PassLemmas

/-! ## Per-entity instances of the loop lemmas -/

theorem categoryPass_idem {uid : Int} {cs : List Category}
    {tbl tbl2 : List CategoryRow}
    (h : listPass (categoryMerge uid) cs tbl = (tbl2, none)) :
    listPass (categoryMerge uid) cs tbl2 = (tbl2, none) :=
  listPass_idem2 (categoryMerge uid) Category.id
    (fun x => matchesKey CategoryRow.id CategoryRow.user_id x.id uid)
    (fun x => categoryUpdate x)
    (fun x tb tb1 hc => upsertMerge_stable CategoryRow.id CategoryRow.user_id x.id uid
      (categoryUpdate x) (categoryInsertRow uid x) (fun r => rfl) (fun r => rfl)
      (by simp [matchesKey, categoryInsertRow]) rfl hc)
    (fun x y tb hne hs => upsertMerge_preserves_stable CategoryRow.id CategoryRow.user_id
      y.id uid (categoryUpdate y) (categoryInsertRow uid y)
      (matchesKey CategoryRow.id CategoryRow.user_id x.id uid) (categoryUpdate x)
      (fun r hr => by
        simp only [matchesKey, Bool.and_eq_true, beq_iff_eq] at hr
        rw [hr.1]
        exact hne.symm)
      (fun r => rfl) rfl hs)
    (fun x tb t1 hgx => by
      obtain ⟨r, hr, h1, h2⟩ := upsertMerge_present CategoryRow.id CategoryRow.user_id
        x.id uid (categoryUpdate x) (categoryInsertRow uid x) (fun r => ⟨rfl, rfl⟩) ⟨rfl, rfl⟩ hgx
      exact ⟨r, hr, by simp [matchesKey, h1, h2]⟩)
    (fun x tb0 t0 tb hok hex => upsertMerge_update_of_present CategoryRow.id
      CategoryRow.user_id x.id uid (categoryUpdate x) (categoryInsertRow uid x) hex)
    (fun x y tb t1 hid hg => by
      show categoryMerge uid y (tb.map (fun r =>
          if matchesKey CategoryRow.id CategoryRow.user_id (Category.id x) uid r
          then categoryUpdate x r else r)) = (t1, none)
      rw [← hid]
      exact upsertMerge_absorb_updateBy CategoryRow.id CategoryRow.user_id
        (Category.id y) uid (categoryUpdate x) (categoryUpdate y) (categoryInsertRow uid y)
        (fun r => rfl) (fun r => rfl) hg)
    (fun x y tb t1 hne hg => upsertMerge_commute_updateBy CategoryRow.id
      CategoryRow.user_id (Category.id y) uid (categoryUpdate y) (categoryInsertRow uid y)
      (matchesKey CategoryRow.id CategoryRow.user_id (Category.id x) uid) (categoryUpdate x)
      (fun r hr => by
        simp only [matchesKey, Bool.and_eq_true, beq_iff_eq] at hr
        rw [hr.1]
        exact beq_eq_false_iff_ne.mpr (Ne.symm hne))
      (fun r => ⟨rfl, rfl⟩) (fun r => rfl)
      (by simp [matchesKey, categoryInsertRow, hne]) hg)
    (fun x y tb t1 e2 hg hex => by
      have hg2 : upsertMerge CategoryRow.id CategoryRow.user_id (Category.id y) uid
          (categoryUpdate y) (categoryInsertRow uid y) tb = (t1, e2) := hg
      have h3 := upsertMerge_keeps_q CategoryRow.id CategoryRow.user_id
        (Category.id y) uid (categoryUpdate y) (categoryInsertRow uid y)
        (matchesKey CategoryRow.id CategoryRow.user_id (Category.id x) uid)
        (fun r => rfl) hex
      rw [hg2] at h3
      exact h3)
    h

theorem categoryPass_frame {uid : Int} {cs : List Category}
    {tbl : List CategoryRow} {r : CategoryRow} (hr : r ∈ tbl)
    (hp : ∀ x ∈ cs, CategoryRow.id r ≠ x.id) :
    r ∈ (listPass (categoryMerge uid) cs tbl).1 :=
  listPass_frame (categoryMerge uid) (fun r0 => ∀ x ∈ cs, CategoryRow.id r0 ≠ x.id)
    (fun x hx tb r0 hr0 hp0 => upsertMerge_frame CategoryRow.id CategoryRow.user_id x.id uid
      (categoryUpdate x) (categoryInsertRow uid x) hr0 (hp0 x hx))
    hr hp

theorem categoryPass_keepIds {uid : Int} {cs : List Category}
    {tbl : List CategoryRow} {r : CategoryRow} (hr : r ∈ tbl) :
    ∃ r2 ∈ (listPass (categoryMerge uid) cs tbl).1,
      CategoryRow.id r2 = CategoryRow.id r ∧ CategoryRow.user_id r2 = CategoryRow.user_id r :=
  listPass_keepIds (categoryMerge uid) CategoryRow.id CategoryRow.user_id
    (fun x hx tb r0 hr0 => upsertMerge_keepIds CategoryRow.id CategoryRow.user_id x.id uid
      (categoryUpdate x) (categoryInsertRow uid x) (fun r1 => ⟨rfl, rfl⟩) hr0)
    hr

/-- A product merge step never touches rows of a different id: the NOT NULL
error path returns the table unchanged, the other paths are the shared
upsert. -/
theorem productMerge_frame {uid : Int} {t : Timestamp} {p : Product}
    {tbl : List ProductRow} {r : ProductRow} (hr : r ∈ tbl)
    (hne : ProductRow.id r ≠ p.id) :
    r ∈ (productMerge uid t p tbl).1 := by
  by_cases hn : productHasNulls p = true
  · rw [productMerge_nulls hn]
    exact hr
  · rw [Bool.not_eq_true] at hn
    rw [productMerge_nonull hn]
    exact upsertMerge_frame ProductRow.id ProductRow.user_id p.id uid
      (productUpdate p) (productInsertRow uid t p) hr hne

/-- A product merge step never deletes a row, on any of its paths. -/
theorem productMerge_keepIds {uid : Int} {t : Timestamp} {p : Product}
    {tbl : List ProductRow} {r : ProductRow} (hr : r ∈ tbl) :
    ∃ r2 ∈ (productMerge uid t p tbl).1,
      ProductRow.id r2 = ProductRow.id r ∧
      ProductRow.user_id r2 = ProductRow.user_id r := by
  by_cases hn : productHasNulls p = true
  · rw [productMerge_nulls hn]
    exact ⟨r, hr, rfl, rfl⟩
  · rw [Bool.not_eq_true] at hn
    rw [productMerge_nonull hn]
    exact upsertMerge_keepIds ProductRow.id ProductRow.user_id p.id uid
      (productUpdate p) (productInsertRow uid t p) (fun r1 => ⟨rfl, rfl⟩) hr

/-- After a successful product merge step the incoming product is present
under the caller's id (success rules out the NOT NULL path). -/
theorem productMerge_present {uid : Int} {t : Timestamp} {p : Product}
    {tbl tbl2 : List ProductRow}
    (h : productMerge uid t p tbl = (tbl2, none)) :
    ∃ r ∈ tbl2, ProductRow.id r = p.id ∧ ProductRow.user_id r = uid := by
  have hn : productHasNulls p = false := by
    by_contra hcon
    rw [Bool.not_eq_false] at hcon
    rw [productMerge_nulls hcon] at h
    simp at h
  rw [productMerge_nonull hn] at h
  exact upsertMerge_present ProductRow.id ProductRow.user_id p.id uid
    (productUpdate p) (productInsertRow uid t p) (fun r => ⟨rfl, rfl⟩)
    ⟨rfl, rfl⟩ h

theorem productPass_idem {uid : Int} {t : Timestamp} {ps : List Product}
    {tbl tbl2 : List ProductRow}
    (h : listPass (productMerge uid t) ps tbl = (tbl2, none)) :
    listPass (productMerge uid t) ps tbl2 = (tbl2, none) :=
  listPass_idem2 (productMerge uid t) Product.id
    (fun x => matchesKey ProductRow.id ProductRow.user_id x.id uid)
    (fun x => productUpdate x)
    (fun x tb tb1 hc => by
      have hn : productHasNulls x = false := by
        by_contra hcon
        rw [Bool.not_eq_false] at hcon
        rw [productMerge_nulls hcon] at hc
        simp at hc
      rw [productMerge_nonull hn] at hc
      exact upsertMerge_stable ProductRow.id ProductRow.user_id x.id uid
        (productUpdate x) (productInsertRow uid t x) (fun r => rfl)
        (fun r => rfl) (by simp [matchesKey, productInsertRow]) rfl hc)
    (fun x y tb hne hs => by
      by_cases hn : productHasNulls y = true
      · rw [productMerge_nulls hn]
        exact hs
      · rw [Bool.not_eq_true] at hn
        rw [productMerge_nonull hn]
        exact upsertMerge_preserves_stable ProductRow.id ProductRow.user_id
          y.id uid (productUpdate y) (productInsertRow uid t y)
          (matchesKey ProductRow.id ProductRow.user_id x.id uid) (productUpdate x)
          (fun r hr => by
            simp only [matchesKey, Bool.and_eq_true, beq_iff_eq] at hr
            rw [hr.1]
            exact hne.symm)
          (fun r => rfl) rfl hs)
    (fun x tb t1 hgx => by
      obtain ⟨r, hr, h1, h2⟩ := productMerge_present hgx
      exact ⟨r, hr, by simp [matchesKey, h1, h2]⟩)
    (fun x tb0 t0 tb hok hex => by
      have hn : productHasNulls x = false := by
        by_contra hcon
        rw [Bool.not_eq_false] at hcon
        rw [productMerge_nulls hcon] at hok
        simp at hok
      rw [productMerge_nonull hn]
      exact upsertMerge_update_of_present ProductRow.id ProductRow.user_id
        x.id uid (productUpdate x) (productInsertRow uid t x) hex)
    (fun x y tb t1 hid hg => by
      have hn : productHasNulls y = false := by
        by_contra hcon
        rw [Bool.not_eq_false] at hcon
        rw [productMerge_nulls hcon] at hg
        simp at hg
      rw [productMerge_nonull hn] at hg
      show productMerge uid t y (tb.map (fun r =>
          if matchesKey ProductRow.id ProductRow.user_id (Product.id x) uid r
          then productUpdate x r else r)) = (t1, none)
      rw [productMerge_nonull hn, ← hid]
      exact upsertMerge_absorb_updateBy ProductRow.id ProductRow.user_id
        (Product.id y) uid (productUpdate x) (productUpdate y)
        (productInsertRow uid t y) (fun r => rfl) (fun r => rfl) hg)
    (fun x y tb t1 hne hg => by
      have hn : productHasNulls y = false := by
        by_contra hcon
        rw [Bool.not_eq_false] at hcon
        rw [productMerge_nulls hcon] at hg
        simp at hg
      rw [productMerge_nonull hn] at hg
      show productMerge uid t y (tb.map (fun r =>
          if matchesKey ProductRow.id ProductRow.user_id (Product.id x) uid r
          then productUpdate x r else r)) =
        (t1.map (fun r =>
          if matchesKey ProductRow.id ProductRow.user_id (Product.id x) uid r
          then productUpdate x r else r), none)
      rw [productMerge_nonull hn]
      exact upsertMerge_commute_updateBy ProductRow.id ProductRow.user_id
        (Product.id y) uid (productUpdate y) (productInsertRow uid t y)
        (matchesKey ProductRow.id ProductRow.user_id (Product.id x) uid)
        (productUpdate x)
        (fun r hr => by
          simp only [matchesKey, Bool.and_eq_true, beq_iff_eq] at hr
          rw [hr.1]
          exact beq_eq_false_iff_ne.mpr (Ne.symm hne))
        (fun r => ⟨rfl, rfl⟩) (fun r => rfl)
        (by simp [matchesKey, productInsertRow, hne]) hg)
    (fun x y tb t1 e2 hg hex => by
      by_cases hn : productHasNulls y = true
      · rw [productMerge_nulls hn, Prod.mk.injEq] at hg
        rw [← hg.1]
        exact hex
      · rw [Bool.not_eq_true] at hn
        rw [productMerge_nonull hn] at hg
        have h3 := upsertMerge_keeps_q ProductRow.id ProductRow.user_id
          (Product.id y) uid (productUpdate y) (productInsertRow uid t y)
          (matchesKey ProductRow.id ProductRow.user_id (Product.id x) uid)
          (fun r => rfl) hex
        rw [hg] at h3
        exact h3)
    h

theorem productPass_frame {uid : Int} {t : Timestamp} {ps : List Product}
    {tbl : List ProductRow} {r : ProductRow} (hr : r ∈ tbl)
    (hp : ∀ x ∈ ps, ProductRow.id r ≠ x.id) :
    r ∈ (listPass (productMerge uid t) ps tbl).1 :=
  listPass_frame (productMerge uid t) (fun r0 => ∀ x ∈ ps, ProductRow.id r0 ≠ x.id)
    (fun x hx tb r0 hr0 hp0 => productMerge_frame hr0 (hp0 x hx))
    hr hp

theorem productPass_keepIds {uid : Int} {t : Timestamp} {ps : List Product}
    {tbl : List ProductRow} {r : ProductRow} (hr : r ∈ tbl) :
    ∃ r2 ∈ (listPass (productMerge uid t) ps tbl).1,
      ProductRow.id r2 = ProductRow.id r ∧ ProductRow.user_id r2 = ProductRow.user_id r :=
  listPass_keepIds (productMerge uid t) ProductRow.id ProductRow.user_id
    (fun x hx tb r0 hr0 => productMerge_keepIds hr0)
    hr

theorem productPass_present {uid : Int} {t : Timestamp} {ps : List Product}
    {tbl tbl2 : List ProductRow}
    (h : listPass (productMerge uid t) ps tbl = (tbl2, none)) :
    ∀ p ∈ ps, ∃ r ∈ tbl2, ProductRow.id r = p.id ∧ ProductRow.user_id r = uid :=
  listPass_present (productMerge uid t) Product.id ProductRow.id
    ProductRow.user_id uid
    (fun p hp tb tb2 hm => productMerge_present hm)
    (fun p hp tb r0 hr0 => productMerge_keepIds hr0)
    h

theorem supplierPass_idem {uid : Int} {xs : List Supplier}
    {tbl tbl2 : List SupplierRow}
    (h : listPass (supplierMerge uid) xs tbl = (tbl2, none)) :
    listPass (supplierMerge uid) xs tbl2 = (tbl2, none) :=
  listPass_idem2 (supplierMerge uid) Supplier.id
    (fun x => matchesKey SupplierRow.id SupplierRow.user_id x.id uid)
    (fun x => supplierUpdate x)
    (fun x tb tb1 hc => upsertMerge_stable SupplierRow.id SupplierRow.user_id x.id uid
      (supplierUpdate x) (supplierInsertRow uid x) (fun r => rfl) (fun r => rfl)
      (by simp [matchesKey, supplierInsertRow]) rfl hc)
    (fun x y tb hne hs => upsertMerge_preserves_stable SupplierRow.id SupplierRow.user_id
      y.id uid (supplierUpdate y) (supplierInsertRow uid y)
      (matchesKey SupplierRow.id SupplierRow.user_id x.id uid) (supplierUpdate x)
      (fun r hr => by
        simp only [matchesKey, Bool.and_eq_true, beq_iff_eq] at hr
        rw [hr.1]
        exact hne.symm)
      (fun r => rfl) rfl hs)
    (fun x tb t1 hgx => by
      obtain ⟨r, hr, h1, h2⟩ := upsertMerge_present SupplierRow.id SupplierRow.user_id
        x.id uid (supplierUpdate x) (supplierInsertRow uid x) (fun r => ⟨rfl, rfl⟩) ⟨rfl, rfl⟩ hgx
      exact ⟨r, hr, by simp [matchesKey, h1, h2]⟩)
    (fun x tb0 t0 tb hok hex => upsertMerge_update_of_present SupplierRow.id
      SupplierRow.user_id x.id uid (supplierUpdate x) (supplierInsertRow uid x) hex)
    (fun x y tb t1 hid hg => by
      show supplierMerge uid y (tb.map (fun r =>
          if matchesKey SupplierRow.id SupplierRow.user_id (Supplier.id x) uid r
          then supplierUpdate x r else r)) = (t1, none)
      rw [← hid]
      exact upsertMerge_absorb_updateBy SupplierRow.id SupplierRow.user_id
        (Supplier.id y) uid (supplierUpdate x) (supplierUpdate y) (supplierInsertRow uid y)
        (fun r => rfl) (fun r => rfl) hg)
    (fun x y tb t1 hne hg => upsertMerge_commute_updateBy SupplierRow.id
      SupplierRow.user_id (Supplier.id y) uid (supplierUpdate y) (supplierInsertRow uid y)
      (matchesKey SupplierRow.id SupplierRow.user_id (Supplier.id x) uid) (supplierUpdate x)
      (fun r hr => by
        simp only [matchesKey, Bool.and_eq_true, beq_iff_eq] at hr
        rw [hr.1]
        exact beq_eq_false_iff_ne.mpr (Ne.symm hne))
      (fun r => ⟨rfl, rfl⟩) (fun r => rfl)
      (by simp [matchesKey, supplierInsertRow, hne]) hg)
    (fun x y tb t1 e2 hg hex => by
      have hg2 : upsertMerge SupplierRow.id SupplierRow.user_id (Supplier.id y) uid
          (supplierUpdate y) (supplierInsertRow uid y) tb = (t1, e2) := hg
      have h3 := upsertMerge_keeps_q SupplierRow.id SupplierRow.user_id
        (Supplier.id y) uid (supplierUpdate y) (supplierInsertRow uid y)
        (matchesKey SupplierRow.id SupplierRow.user_id (Supplier.id x) uid)
        (fun r => rfl) hex
      rw [hg2] at h3
      exact h3)
    h

theorem supplierPass_frame {uid : Int} {xs : List Supplier}
    {tbl : List SupplierRow} {r : SupplierRow} (hr : r ∈ tbl)
    (hp : ∀ x ∈ xs, SupplierRow.id r ≠ x.id) :
    r ∈ (listPass (supplierMerge uid) xs tbl).1 :=
  listPass_frame (supplierMerge uid) (fun r0 => ∀ x ∈ xs, SupplierRow.id r0 ≠ x.id)
    (fun x hx tb r0 hr0 hp0 => upsertMerge_frame SupplierRow.id SupplierRow.user_id x.id uid
      (supplierUpdate x) (supplierInsertRow uid x) hr0 (hp0 x hx))
    hr hp

theorem supplierPass_keepIds {uid : Int} {xs : List Supplier}
    {tbl : List SupplierRow} {r : SupplierRow} (hr : r ∈ tbl) :
    ∃ r2 ∈ (listPass (supplierMerge uid) xs tbl).1,
      SupplierRow.id r2 = SupplierRow.id r ∧ SupplierRow.user_id r2 = SupplierRow.user_id r :=
  listPass_keepIds (supplierMerge uid) SupplierRow.id SupplierRow.user_id
    (fun x hx tb r0 hr0 => upsertMerge_keepIds SupplierRow.id SupplierRow.user_id x.id uid
      (supplierUpdate x) (supplierInsertRow uid x) (fun r1 => ⟨rfl, rfl⟩) hr0)
    hr

theorem salePass_idem {uid : Int} {xs : List Sale}
    {tbl tbl2 : List SaleRow}
    (h : listPass (saleMerge uid) xs tbl = (tbl2, none)) :
    listPass (saleMerge uid) xs tbl2 = (tbl2, none) :=
  listPass_idem2 (saleMerge uid) Sale.id
    (fun x => matchesKey SaleRow.id SaleRow.user_id x.id uid)
    (fun x => saleUpdate x)
    (fun x tb tb1 hc => upsertMerge_stable SaleRow.id SaleRow.user_id x.id uid
      (saleUpdate x) (saleInsertRow uid x) (fun r => rfl) (fun r => rfl)
      (by simp [matchesKey, saleInsertRow]) rfl hc)
    (fun x y tb hne hs => upsertMerge_preserves_stable SaleRow.id SaleRow.user_id
      y.id uid (saleUpdate y) (saleInsertRow uid y)
      (matchesKey SaleRow.id SaleRow.user_id x.id uid) (saleUpdate x)
      (fun r hr => by
        simp only [matchesKey, Bool.and_eq_true, beq_iff_eq] at hr
        rw [hr.1]
        exact hne.symm)
      (fun r => rfl) rfl hs)
    (fun x tb t1 hgx => by
      obtain ⟨r, hr, h1, h2⟩ := upsertMerge_present SaleRow.id SaleRow.user_id
        x.id uid (saleUpdate x) (saleInsertRow uid x) (fun r => ⟨rfl, rfl⟩) ⟨rfl, rfl⟩ hgx
      exact ⟨r, hr, by simp [matchesKey, h1, h2]⟩)
    (fun x tb0 t0 tb hok hex => upsertMerge_update_of_present SaleRow.id
      SaleRow.user_id x.id uid (saleUpdate x) (saleInsertRow uid x) hex)
    (fun x y tb t1 hid hg => by
      show saleMerge uid y (tb.map (fun r =>
          if matchesKey SaleRow.id SaleRow.user_id (Sale.id x) uid r
          then saleUpdate x r else r)) = (t1, none)
      rw [← hid]
      exact upsertMerge_absorb_updateBy SaleRow.id SaleRow.user_id
        (Sale.id y) uid (saleUpdate x) (saleUpdate y) (saleInsertRow uid y)
        (fun r => rfl) (fun r => rfl) hg)
    (fun x y tb t1 hne hg => upsertMerge_commute_updateBy SaleRow.id
      SaleRow.user_id (Sale.id y) uid (saleUpdate y) (saleInsertRow uid y)
      (matchesKey SaleRow.id SaleRow.user_id (Sale.id x) uid) (saleUpdate x)
      (fun r hr => by
        simp only [matchesKey, Bool.and_eq_true, beq_iff_eq] at hr
        rw [hr.1]
        exact beq_eq_false_iff_ne.mpr (Ne.symm hne))
      (fun r => ⟨rfl, rfl⟩) (fun r => rfl)
      (by simp [matchesKey, saleInsertRow, hne]) hg)
    (fun x y tb t1 e2 hg hex => by
      have hg2 : upsertMerge SaleRow.id SaleRow.user_id (Sale.id y) uid
          (saleUpdate y) (saleInsertRow uid y) tb = (t1, e2) := hg
      have h3 := upsertMerge_keeps_q SaleRow.id SaleRow.user_id
        (Sale.id y) uid (saleUpdate y) (saleInsertRow uid y)
        (matchesKey SaleRow.id SaleRow.user_id (Sale.id x) uid)
        (fun r => rfl) hex
      rw [hg2] at h3
      exact h3)
    h

theorem salePass_frame {uid : Int} {xs : List Sale}
    {tbl : List SaleRow} {r : SaleRow} (hr : r ∈ tbl)
    (hp : ∀ x ∈ xs, SaleRow.id r ≠ x.id) :
    r ∈ (listPass (saleMerge uid) xs tbl).1 :=
  listPass_frame (saleMerge uid) (fun r0 => ∀ x ∈ xs, SaleRow.id r0 ≠ x.id)
    (fun x hx tb r0 hr0 hp0 => upsertMerge_frame SaleRow.id SaleRow.user_id x.id uid
      (saleUpdate x) (saleInsertRow uid x) hr0 (hp0 x hx))
    hr hp

theorem salePass_keepIds {uid : Int} {xs : List Sale}
    {tbl : List SaleRow} {r : SaleRow} (hr : r ∈ tbl) :
    ∃ r2 ∈ (listPass (saleMerge uid) xs tbl).1,
      SaleRow.id r2 = SaleRow.id r ∧ SaleRow.user_id r2 = SaleRow.user_id r :=
  listPass_keepIds (saleMerge uid) SaleRow.id SaleRow.user_id
    (fun x hx tb r0 hr0 => upsertMerge_keepIds SaleRow.id SaleRow.user_id x.id uid
      (saleUpdate x) (saleInsertRow uid x) (fun r1 => ⟨rfl, rfl⟩) hr0)
    hr

theorem purchasePass_idem {uid : Int} {xs : List Purchase}
    {tbl tbl2 : List PurchaseRow}
    (h : listPass (purchaseMerge uid) xs tbl = (tbl2, none)) :
    listPass (purchaseMerge uid) xs tbl2 = (tbl2, none) :=
  listPass_idem2 (purchaseMerge uid) Purchase.id
    (fun x => matchesKey PurchaseRow.id PurchaseRow.user_id x.id uid)
    (fun x => purchaseUpdate x)
    (fun x tb tb1 hc => upsertMerge_stable PurchaseRow.id PurchaseRow.user_id x.id uid
      (purchaseUpdate x) (purchaseInsertRow uid x) (fun r => rfl) (fun r => rfl)
      (by simp [matchesKey, purchaseInsertRow]) rfl hc)
    (fun x y tb hne hs => upsertMerge_preserves_stable PurchaseRow.id PurchaseRow.user_id
      y.id uid (purchaseUpdate y) (purchaseInsertRow uid y)
      (matchesKey PurchaseRow.id PurchaseRow.user_id x.id uid) (purchaseUpdate x)
      (fun r hr => by
        simp only [matchesKey, Bool.and_eq_true, beq_iff_eq] at hr
        rw [hr.1]
        exact hne.symm)
      (fun r => rfl) rfl hs)
    (fun x tb t1 hgx => by
      obtain ⟨r, hr, h1, h2⟩ := upsertMerge_present PurchaseRow.id PurchaseRow.user_id
        x.id uid (purchaseUpdate x) (purchaseInsertRow uid x) (fun r => ⟨rfl, rfl⟩) ⟨rfl, rfl⟩ hgx
      exact ⟨r, hr, by simp [matchesKey, h1, h2]⟩)
    (fun x tb0 t0 tb hok hex => upsertMerge_update_of_present PurchaseRow.id
      PurchaseRow.user_id x.id uid (purchaseUpdate x) (purchaseInsertRow uid x) hex)
    (fun x y tb t1 hid hg => by
      show purchaseMerge uid y (tb.map (fun r =>
          if matchesKey PurchaseRow.id PurchaseRow.user_id (Purchase.id x) uid r
          then purchaseUpdate x r else r)) = (t1, none)
      rw [← hid]
      exact upsertMerge_absorb_updateBy PurchaseRow.id PurchaseRow.user_id
        (Purchase.id y) uid (purchaseUpdate x) (purchaseUpdate y) (purchaseInsertRow uid y)
        (fun r => rfl) (fun r => rfl) hg)
    (fun x y tb t1 hne hg => upsertMerge_commute_updateBy PurchaseRow.id
      PurchaseRow.user_id (Purchase.id y) uid (purchaseUpdate y) (purchaseInsertRow uid y)
      (matchesKey PurchaseRow.id PurchaseRow.user_id (Purchase.id x) uid) (purchaseUpdate x)
      (fun r hr => by
        simp only [matchesKey, Bool.and_eq_true, beq_iff_eq] at hr
        rw [hr.1]
        exact beq_eq_false_iff_ne.mpr (Ne.symm hne))
      (fun r => ⟨rfl, rfl⟩) (fun r => rfl)
      (by simp [matchesKey, purchaseInsertRow, hne]) hg)
    (fun x y tb t1 e2 hg hex => by
      have hg2 : upsertMerge PurchaseRow.id PurchaseRow.user_id (Purchase.id y) uid
          (purchaseUpdate y) (purchaseInsertRow uid y) tb = (t1, e2) := hg
      have h3 := upsertMerge_keeps_q PurchaseRow.id PurchaseRow.user_id
        (Purchase.id y) uid (purchaseUpdate y) (purchaseInsertRow uid y)
        (matchesKey PurchaseRow.id PurchaseRow.user_id (Purchase.id x) uid)
        (fun r => rfl) hex
      rw [hg2] at h3
      exact h3)
    h

theorem purchasePass_frame {uid : Int} {xs : List Purchase}
    {tbl : List PurchaseRow} {r : PurchaseRow} (hr : r ∈ tbl)
    (hp : ∀ x ∈ xs, PurchaseRow.id r ≠ x.id) :
    r ∈ (listPass (purchaseMerge uid) xs tbl).1 :=
  listPass_frame (purchaseMerge uid) (fun r0 => ∀ x ∈ xs, PurchaseRow.id r0 ≠ x.id)
    (fun x hx tb r0 hr0 hp0 => upsertMerge_frame PurchaseRow.id PurchaseRow.user_id x.id uid
      (purchaseUpdate x) (purchaseInsertRow uid x) hr0 (hp0 x hx))
    hr hp

theorem purchasePass_keepIds {uid : Int} {xs : List Purchase}
    {tbl : List PurchaseRow} {r : PurchaseRow} (hr : r ∈ tbl) :
    ∃ r2 ∈ (listPass (purchaseMerge uid) xs tbl).1,
      PurchaseRow.id r2 = PurchaseRow.id r ∧ PurchaseRow.user_id r2 = PurchaseRow.user_id r :=
  listPass_keepIds (purchaseMerge uid) PurchaseRow.id PurchaseRow.user_id
    (fun x hx tb r0 hr0 => upsertMerge_keepIds PurchaseRow.id PurchaseRow.user_id x.id uid
      (purchaseUpdate x) (purchaseInsertRow uid x) (fun r1 => ⟨rfl, rfl⟩) hr0)
    hr

theorem adjustmentPass_idem {uid : Int} {xs : List Adjustment}
    {tbl tbl2 : List AdjustmentRow}
    (h : listPass (adjustmentMerge uid) xs tbl = (tbl2, none)) :
    listPass (adjustmentMerge uid) xs tbl2 = (tbl2, none) :=
  listPass_idem2 (adjustmentMerge uid) Adjustment.id
    (fun x => matchesKey AdjustmentRow.id AdjustmentRow.user_id x.id uid)
    (fun x => adjustmentUpdate x)
    (fun x tb tb1 hc => upsertMerge_stable AdjustmentRow.id AdjustmentRow.user_id x.id uid
      (adjustmentUpdate x) (adjustmentInsertRow uid x) (fun r => rfl) (fun r => rfl)
      (by simp [matchesKey, adjustmentInsertRow]) rfl hc)
    (fun x y tb hne hs => upsertMerge_preserves_stable AdjustmentRow.id AdjustmentRow.user_id
      y.id uid (adjustmentUpdate y) (adjustmentInsertRow uid y)
      (matchesKey AdjustmentRow.id AdjustmentRow.user_id x.id uid) (adjustmentUpdate x)
      (fun r hr => by
        simp only [matchesKey, Bool.and_eq_true, beq_iff_eq] at hr
        rw [hr.1]
        exact hne.symm)
      (fun r => rfl) rfl hs)
    (fun x tb t1 hgx => by
      obtain ⟨r, hr, h1, h2⟩ := upsertMerge_present AdjustmentRow.id AdjustmentRow.user_id
        x.id uid (adjustmentUpdate x) (adjustmentInsertRow uid x) (fun r => ⟨rfl, rfl⟩) ⟨rfl, rfl⟩ hgx
      exact ⟨r, hr, by simp [matchesKey, h1, h2]⟩)
    (fun x tb0 t0 tb hok hex => upsertMerge_update_of_present AdjustmentRow.id
      AdjustmentRow.user_id x.id uid (adjustmentUpdate x) (adjustmentInsertRow uid x) hex)
    (fun x y tb t1 hid hg => by
      show adjustmentMerge uid y (tb.map (fun r =>
          if matchesKey AdjustmentRow.id AdjustmentRow.user_id (Adjustment.id x) uid r
          then adjustmentUpdate x r else r)) = (t1, none)
      rw [← hid]
      exact upsertMerge_absorb_updateBy AdjustmentRow.id AdjustmentRow.user_id
        (Adjustment.id y) uid (adjustmentUpdate x) (adjustmentUpdate y) (adjustmentInsertRow uid y)
        (fun r => rfl) (fun r => rfl) hg)
    (fun x y tb t1 hne hg => upsertMerge_commute_updateBy AdjustmentRow.id
      AdjustmentRow.user_id (Adjustment.id y) uid (adjustmentUpdate y) (adjustmentInsertRow uid y)
      (matchesKey AdjustmentRow.id AdjustmentRow.user_id (Adjustment.id x) uid) (adjustmentUpdate x)
      (fun r hr => by
        simp only [matchesKey, Bool.and_eq_true, beq_iff_eq] at hr
        rw [hr.1]
        exact beq_eq_false_iff_ne.mpr (Ne.symm hne))
      (fun r => ⟨rfl, rfl⟩) (fun r => rfl)
      (by simp [matchesKey, adjustmentInsertRow, hne]) hg)
    (fun x y tb t1 e2 hg hex => by
      have hg2 : upsertMerge AdjustmentRow.id AdjustmentRow.user_id (Adjustment.id y) uid
          (adjustmentUpdate y) (adjustmentInsertRow uid y) tb = (t1, e2) := hg
      have h3 := upsertMerge_keeps_q AdjustmentRow.id AdjustmentRow.user_id
        (Adjustment.id y) uid (adjustmentUpdate y) (adjustmentInsertRow uid y)
        (matchesKey AdjustmentRow.id AdjustmentRow.user_id (Adjustment.id x) uid)
        (fun r => rfl) hex
      rw [hg2] at h3
      exact h3)
    h

theorem adjustmentPass_frame {uid : Int} {xs : List Adjustment}
    {tbl : List AdjustmentRow} {r : AdjustmentRow} (hr : r ∈ tbl)
    (hp : ∀ x ∈ xs, AdjustmentRow.id r ≠ x.id) :
    r ∈ (listPass (adjustmentMerge uid) xs tbl).1 :=
  listPass_frame (adjustmentMerge uid) (fun r0 => ∀ x ∈ xs, AdjustmentRow.id r0 ≠ x.id)
    (fun x hx tb r0 hr0 hp0 => upsertMerge_frame AdjustmentRow.id AdjustmentRow.user_id x.id uid
      (adjustmentUpdate x) (adjustmentInsertRow uid x) hr0 (hp0 x hx))
    hr hp

theorem adjustmentPass_keepIds {uid : Int} {xs : List Adjustment}
    {tbl : List AdjustmentRow} {r : AdjustmentRow} (hr : r ∈ tbl) :
    ∃ r2 ∈ (listPass (adjustmentMerge uid) xs tbl).1,
      AdjustmentRow.id r2 = AdjustmentRow.id r ∧ AdjustmentRow.user_id r2 = AdjustmentRow.user_id r :=
  listPass_keepIds (adjustmentMerge uid) AdjustmentRow.id AdjustmentRow.user_id
    (fun x hx tb r0 hr0 => upsertMerge_keepIds AdjustmentRow.id AdjustmentRow.user_id x.id uid
      (adjustmentUpdate x) (adjustmentInsertRow uid x) (fun r1 => ⟨rfl, rfl⟩) hr0)
    hr

theorem activityPass_idem {uid : Int} {xs : List Activity}
    {tbl tbl2 : List ActivityRow}
    (h : listPass (activityMerge uid) xs tbl = (tbl2, none)) :
    listPass (activityMerge uid) xs tbl2 = (tbl2, none) :=
  listPass_idem2 (activityMerge uid) Activity.id
    (fun a r => ActivityRow.id r == a.id)
    (fun a => activityUpdate a)
    (fun a tb tb1 ha => by
      have h1 : tb1 = upsertOnKey ActivityRow.id a.id (activityUpdate a)
          (activityInsertRow uid a) tb := (congrArg Prod.fst ha).symm
      rw [h1]
      exact upsertOnKey_stable ActivityRow.id a.id (activityUpdate a)
        (activityInsertRow uid a) (fun r => rfl) (fun r => rfl) rfl rfl tb)
    (fun a y tb hne hs => upsertOnKey_preserves_stable ActivityRow.id y.id
      (activityUpdate y) (activityInsertRow uid y)
      (fun r => ActivityRow.id r == a.id) (activityUpdate a)
      (fun r hr => by
        rw [beq_iff_eq.mp hr]
        exact hne.symm)
      (fun r => rfl) rfl hs)
    (fun a tb t1 ha => by
      have h1 : t1 = upsertOnKey ActivityRow.id a.id (activityUpdate a)
          (activityInsertRow uid a) tb := (congrArg Prod.fst ha).symm
      rw [h1]
      exact upsertOnKey_present ActivityRow.id a.id (activityUpdate a)
        (activityInsertRow uid a) (fun r => rfl) rfl tb)
    (fun a tb0 t0 tb hok hex => by
      show activityMerge uid a tb =
        (tb.map (fun r =>
          if ActivityRow.id r == Activity.id a then activityUpdate a r else r),
          none)
      unfold activityMerge
      rw [upsertOnKey_update_of_present ActivityRow.id a.id (activityUpdate a)
        (activityInsertRow uid a) hex])
    (fun x y tb t1 hid hg => by
      have h1 : t1 = upsertOnKey ActivityRow.id y.id (activityUpdate y)
          (activityInsertRow uid y) tb := (congrArg Prod.fst hg).symm
      show activityMerge uid y (tb.map (fun r =>
          if ActivityRow.id r == Activity.id x then activityUpdate x r else r)) =
        (t1, none)
      rw [← hid]
      unfold activityMerge
      rw [upsertOnKey_absorb_updateBy ActivityRow.id (Activity.id y)
        (activityUpdate x) (activityUpdate y) (activityInsertRow uid y)
        (fun r => rfl) (fun r => rfl) tb]
      rw [h1]
    )
    (fun x y tb t1 hne hg => by
      have h1 : t1 = upsertOnKey ActivityRow.id y.id (activityUpdate y)
          (activityInsertRow uid y) tb := (congrArg Prod.fst hg).symm
      show activityMerge uid y (tb.map (fun r =>
          if ActivityRow.id r == Activity.id x then activityUpdate x r else r)) =
        (t1.map (fun r =>
          if ActivityRow.id r == Activity.id x then activityUpdate x r else r),
          none)
      unfold activityMerge
      rw [upsertOnKey_commute_updateBy ActivityRow.id (Activity.id y)
        (activityUpdate y) (activityInsertRow uid y)
        (fun r => ActivityRow.id r == Activity.id x) (activityUpdate x)
        (fun r hr => by
          rw [beq_iff_eq.mp hr]
          exact beq_eq_false_iff_ne.mpr (Ne.symm hne))
        (fun r => rfl) (fun r => rfl)
        (by simp [activityInsertRow, hne]) tb]
      rw [h1]
    )
    (fun x y tb t1 e2 hg hex => by
      have h1 : t1 = upsertOnKey ActivityRow.id y.id (activityUpdate y)
          (activityInsertRow uid y) tb := (congrArg Prod.fst hg).symm
      rw [h1]
      exact upsertOnKey_keeps_q ActivityRow.id y.id (activityUpdate y)
        (activityInsertRow uid y) (fun r => ActivityRow.id r == Activity.id x)
        (fun r => rfl) hex)
    h

theorem activityPass_frame {uid : Int} {xs : List Activity}
    {tbl : List ActivityRow} {r : ActivityRow} (hr : r ∈ tbl)
    (hp : ∀ a ∈ xs, ActivityRow.id r ≠ a.id) :
    r ∈ (listPass (activityMerge uid) xs tbl).1 :=
  listPass_frame (activityMerge uid) (fun r0 => ∀ a ∈ xs, ActivityRow.id r0 ≠ a.id)
    (fun a ha tb r0 hr0 hp0 => upsertOnKey_frame ActivityRow.id a.id
      (activityUpdate a) (activityInsertRow uid a) hr0 (hp0 a ha))
    hr hp

theorem activityPass_keepIds {uid : Int} {xs : List Activity}
    {tbl : List ActivityRow} {r : ActivityRow} (hr : r ∈ tbl) :
    ∃ r2 ∈ (listPass (activityMerge uid) xs tbl).1,
      ActivityRow.id r2 = ActivityRow.id r ∧
      ActivityRow.user_id r2 = ActivityRow.user_id r :=
  listPass_keepIds (activityMerge uid) ActivityRow.id ActivityRow.user_id
    (fun a ha tb r0 hr0 => upsertOnKey_keepIds ActivityRow.id a.id
      (activityUpdate a) (activityInsertRow uid a)
      ActivityRow.id ActivityRow.user_id (fun r1 => ⟨rfl, rfl⟩) hr0)
    hr

theorem settingsMerge_idem {uid : Int} {t : Timestamp} {x : Settings}
    {tbl : List SettingsRow} :
    settingsMerge uid t x (settingsMerge uid t x tbl) =
      settingsMerge uid t x tbl :=
  upsertOnKey_of_stable SettingsRow.user_id uid (settingsUpdate t x)
    (settingsInsertRow uid t x)
    (upsertOnKey_stable SettingsRow.user_id uid (settingsUpdate t x)
      (settingsInsertRow uid t x) (fun r => rfl) (fun r => rfl) rfl rfl tbl)

/-! ## Decomposition of the orchestration -/

theorem mergeAll_ok {uid : Int} {t : Timestamp} {d : SyncData} {s : Store}
    {lc : List CategoryRow} {la : List ActivityRow} {lp : List ProductRow}
    {lsup : List SupplierRow} {lsa : List SaleRow} {lpu : List PurchaseRow}
    {lad : List AdjustmentRow}
    (h1 : listPass (categoryMerge uid) d.categories s.categories = (lc, none))
    (h2 : listPass (activityMerge uid) d.activities s.activities = (la, none))
    (h3 : listPass (productMerge uid t) d.products s.products = (lp, none))
    (h4 : listPass (supplierMerge uid) d.suppliers s.suppliers = (lsup, none))
    (h5 : listPass (saleMerge uid) d.sales s.sales = (lsa, none))
    (h6 : listPass (purchaseMerge uid) d.purchases s.purchases = (lpu, none))
    (h7 : listPass (adjustmentMerge uid) d.adjustments s.adjustments = (lad, none)) :
    mergeAll uid t d s =
      ({ s with
        categories := lc, activities := la, products := lp,
        suppliers := lsup, sales := lsa, purchases := lpu, adjustments := lad,
        settings := settingsFinal uid t d s.settings }, none) := by
  unfold mergeAll
  rw [h1, h2, h3, h4, h5, h6, h7]

theorem mergeAll_ok_inv {uid : Int} {t : Timestamp} {d : SyncData} {s : Store}
    {s2 : Store} (h : mergeAll uid t d s = (s2, none)) :
    ∃ lc la lp lsup lsa lpu lad,
      listPass (categoryMerge uid) d.categories s.categories = (lc, none) ∧
      listPass (activityMerge uid) d.activities s.activities = (la, none) ∧
      listPass (productMerge uid t) d.products s.products = (lp, none) ∧
      listPass (supplierMerge uid) d.suppliers s.suppliers = (lsup, none) ∧
      listPass (saleMerge uid) d.sales s.sales = (lsa, none) ∧
      listPass (purchaseMerge uid) d.purchases s.purchases = (lpu, none) ∧
      listPass (adjustmentMerge uid) d.adjustments s.adjustments = (lad, none) ∧
      s2 = { s with
        categories := lc, activities := la, products := lp,
        suppliers := lsup, sales := lsa, purchases := lpu, adjustments := lad,
        settings := settingsFinal uid t d s.settings } := by
  unfold mergeAll at h
  rcases h1 : listPass (categoryMerge uid) d.categories s.categories with ⟨lc, e1⟩
  rw [h1] at h
  cases e1 with
  | some e => simp at h
  | none =>
  rcases h2 : listPass (activityMerge uid) d.activities s.activities with ⟨la, e2⟩
  rw [h2] at h
  cases e2 with
  | some e => simp at h
  | none =>
  rcases h3 : listPass (productMerge uid t) d.products s.products with ⟨lp, e3⟩
  rw [h3] at h
  cases e3 with
  | some e => simp at h
  | none =>
  rcases h4 : listPass (supplierMerge uid) d.suppliers s.suppliers with ⟨lsup, e4⟩
  rw [h4] at h
  cases e4 with
  | some e => simp at h
  | none =>
  rcases h5 : listPass (saleMerge uid) d.sales s.sales with ⟨lsa, e5⟩
  rw [h5] at h
  cases e5 with
  | some e => simp at h
  | none =>
  rcases h6 : listPass (purchaseMerge uid) d.purchases s.purchases with ⟨lpu, e6⟩
  rw [h6] at h
  cases e6 with
  | some e => simp at h
  | none =>
  rcases h7 : listPass (adjustmentMerge uid) d.adjustments s.adjustments with ⟨lad, e7⟩
  rw [h7] at h
  cases e7 with
  | some e => simp at h
  | none =>
  rw [Prod.mk.injEq] at h
  exact ⟨lc, la, lp, lsup, lsa, lpu, lad, rfl, rfl, rfl, rfl, rfl, rfl, rfl, h.1.symm⟩

/-- `mergeAll` when the categories loop raises: later kinds untouched. -/
theorem mergeAll_err1 {uid : Int} {t : Timestamp} {d : SyncData} {s : Store}
    {lc : List CategoryRow} {e : SyncErr}
    (h1 : listPass (categoryMerge uid) d.categories s.categories = (lc, some e)) :
    mergeAll uid t d s = ({ s with categories := lc }, some e) := by
  unfold mergeAll
  rw [h1]

/-- `mergeAll` when the activities loop raises. -/
theorem mergeAll_err2 {uid : Int} {t : Timestamp} {d : SyncData} {s : Store}
    {lc : List CategoryRow} {la : List ActivityRow} {e : SyncErr}
    (h1 : listPass (categoryMerge uid) d.categories s.categories = (lc, none))
    (h2 : listPass (activityMerge uid) d.activities s.activities = (la, some e)) :
    mergeAll uid t d s =
      ({ s with categories := lc, activities := la }, some e) := by
  unfold mergeAll
  rw [h1, h2]

/-- `mergeAll` when the products loop raises: the writes of the two loops
already run (categories, activities) are retained. -/
theorem mergeAll_err3 {uid : Int} {t : Timestamp} {d : SyncData} {s : Store}
    {lc : List CategoryRow} {la : List ActivityRow} {lp : List ProductRow}
    {e : SyncErr}
    (h1 : listPass (categoryMerge uid) d.categories s.categories = (lc, none))
    (h2 : listPass (activityMerge uid) d.activities s.activities = (la, none))
    (h3 : listPass (productMerge uid t) d.products s.products = (lp, some e)) :
    mergeAll uid t d s =
      ({ s with categories := lc, activities := la, products := lp }, some e) := by
  unfold mergeAll
  rw [h1, h2, h3]

/-- `mergeAll` when the suppliers loop raises. -/
theorem mergeAll_err4 {uid : Int} {t : Timestamp} {d : SyncData} {s : Store}
    {lc : List CategoryRow} {la : List ActivityRow} {lp : List ProductRow}
    {lsup : List SupplierRow} {e : SyncErr}
    (h1 : listPass (categoryMerge uid) d.categories s.categories = (lc, none))
    (h2 : listPass (activityMerge uid) d.activities s.activities = (la, none))
    (h3 : listPass (productMerge uid t) d.products s.products = (lp, none))
    (h4 : listPass (supplierMerge uid) d.suppliers s.suppliers = (lsup, some e)) :
    mergeAll uid t d s =
      ({ s with
        categories := lc, activities := la, products := lp,
        suppliers := lsup }, some e) := by
  unfold mergeAll
  rw [h1, h2, h3, h4]

/-- `mergeAll` when the sales loop raises. -/
theorem mergeAll_err5 {uid : Int} {t : Timestamp} {d : SyncData} {s : Store}
    {lc : List CategoryRow} {la : List ActivityRow} {lp : List ProductRow}
    {lsup : List SupplierRow} {lsa : List SaleRow} {e : SyncErr}
    (h1 : listPass (categoryMerge uid) d.categories s.categories = (lc, none))
    (h2 : listPass (activityMerge uid) d.activities s.activities = (la, none))
    (h3 : listPass (productMerge uid t) d.products s.products = (lp, none))
    (h4 : listPass (supplierMerge uid) d.suppliers s.suppliers = (lsup, none))
    (h5 : listPass (saleMerge uid) d.sales s.sales = (lsa, some e)) :
    mergeAll uid t d s =
      ({ s with
        categories := lc, activities := la, products := lp,
        suppliers := lsup, sales := lsa }, some e) := by
  unfold mergeAll
  rw [h1, h2, h3, h4, h5]

/-- `mergeAll` when the purchases loop raises. -/
theorem mergeAll_err6 {uid : Int} {t : Timestamp} {d : SyncData} {s : Store}
    {lc : List CategoryRow} {la : List ActivityRow} {lp : List ProductRow}
    {lsup : List SupplierRow} {lsa : List SaleRow} {lpu : List PurchaseRow}
    {e : SyncErr}
    (h1 : listPass (categoryMerge uid) d.categories s.categories = (lc, none))
    (h2 : listPass (activityMerge uid) d.activities s.activities = (la, none))
    (h3 : listPass (productMerge uid t) d.products s.products = (lp, none))
    (h4 : listPass (supplierMerge uid) d.suppliers s.suppliers = (lsup, none))
    (h5 : listPass (saleMerge uid) d.sales s.sales = (lsa, none))
    (h6 : listPass (purchaseMerge uid) d.purchases s.purchases = (lpu, some e)) :
    mergeAll uid t d s =
      ({ s with
        categories := lc, activities := la, products := lp,
        suppliers := lsup, sales := lsa, purchases := lpu }, some e) := by
  unfold mergeAll
  rw [h1, h2, h3, h4, h5, h6]

/-- `mergeAll` when the adjustments loop raises. -/
theorem mergeAll_err7 {uid : Int} {t : Timestamp} {d : SyncData} {s : Store}
    {lc : List CategoryRow} {la : List ActivityRow} {lp : List ProductRow}
    {lsup : List SupplierRow} {lsa : List SaleRow} {lpu : List PurchaseRow}
    {lad : List AdjustmentRow} {e : SyncErr}
    (h1 : listPass (categoryMerge uid) d.categories s.categories = (lc, none))
    (h2 : listPass (activityMerge uid) d.activities s.activities = (la, none))
    (h3 : listPass (productMerge uid t) d.products s.products = (lp, none))
    (h4 : listPass (supplierMerge uid) d.suppliers s.suppliers = (lsup, none))
    (h5 : listPass (saleMerge uid) d.sales s.sales = (lsa, none))
    (h6 : listPass (purchaseMerge uid) d.purchases s.purchases = (lpu, none))
    (h7 : listPass (adjustmentMerge uid) d.adjustments s.adjustments = (lad, some e)) :
    mergeAll uid t d s =
      ({ s with
        categories := lc, activities := la, products := lp,
        suppliers := lsup, sales := lsa, purchases := lpu,
        adjustments := lad }, some e) := by
  unfold mergeAll
  rw [h1, h2, h3, h4, h5, h6, h7]

/-- Every table of the store returned by `mergeAll` — also on a failed
request — is either the original table or the result of its own loop. -/
theorem mergeAll_tables {uid : Int} {t : Timestamp} {d : SyncData} {s : Store} :
    ((mergeAll uid t d s).1.categories = s.categories ∨
      (mergeAll uid t d s).1.categories =
        (listPass (categoryMerge uid) d.categories s.categories).1) ∧
    ((mergeAll uid t d s).1.activities = s.activities ∨
      (mergeAll uid t d s).1.activities =
        (listPass (activityMerge uid) d.activities s.activities).1) ∧
    ((mergeAll uid t d s).1.products = s.products ∨
      (mergeAll uid t d s).1.products =
        (listPass (productMerge uid t) d.products s.products).1) ∧
    ((mergeAll uid t d s).1.suppliers = s.suppliers ∨
      (mergeAll uid t d s).1.suppliers =
        (listPass (supplierMerge uid) d.suppliers s.suppliers).1) ∧
    ((mergeAll uid t d s).1.sales = s.sales ∨
      (mergeAll uid t d s).1.sales =
        (listPass (saleMerge uid) d.sales s.sales).1) ∧
    ((mergeAll uid t d s).1.purchases = s.purchases ∨
      (mergeAll uid t d s).1.purchases =
        (listPass (purchaseMerge uid) d.purchases s.purchases).1) ∧
    ((mergeAll uid t d s).1.adjustments = s.adjustments ∨
      (mergeAll uid t d s).1.adjustments =
        (listPass (adjustmentMerge uid) d.adjustments s.adjustments).1) ∧
    ((mergeAll uid t d s).1.settings = s.settings ∨
      (mergeAll uid t d s).1.settings = settingsFinal uid t d s.settings) := by
  rcases h1 : listPass (categoryMerge uid) d.categories s.categories with ⟨lc, e1⟩
  cases e1 with
  | some e =>
    rw [mergeAll_err1 h1]
    exact ⟨Or.inr (by rfl), Or.inl rfl, Or.inl rfl, Or.inl rfl,
      Or.inl rfl, Or.inl rfl, Or.inl rfl, Or.inl rfl⟩
  | none =>
  rcases h2 : listPass (activityMerge uid) d.activities s.activities with ⟨la, e2⟩
  cases e2 with
  | some e =>
    rw [mergeAll_err2 h1 h2]
    exact ⟨Or.inr (by rfl), Or.inr (by rfl), Or.inl rfl, Or.inl rfl,
      Or.inl rfl, Or.inl rfl, Or.inl rfl, Or.inl rfl⟩
  | none =>
  rcases h3 : listPass (productMerge uid t) d.products s.products with ⟨lp, e3⟩
  cases e3 with
  | some e =>
    rw [mergeAll_err3 h1 h2 h3]
    exact ⟨Or.inr (by rfl), Or.inr (by rfl), Or.inr (by rfl),
      Or.inl rfl, Or.inl rfl, Or.inl rfl, Or.inl rfl, Or.inl rfl⟩
  | none =>
  rcases h4 : listPass (supplierMerge uid) d.suppliers s.suppliers with ⟨lsup, e4⟩
  cases e4 with
  | some e =>
    rw [mergeAll_err4 h1 h2 h3 h4]
    exact ⟨Or.inr (by rfl), Or.inr (by rfl), Or.inr (by rfl),
      Or.inr (by rfl), Or.inl rfl, Or.inl rfl, Or.inl rfl, Or.inl rfl⟩
  | none =>
  rcases h5 : listPass (saleMerge uid) d.sales s.sales with ⟨lsa, e5⟩
  cases e5 with
  | some e =>
    rw [mergeAll_err5 h1 h2 h3 h4 h5]
    exact ⟨Or.inr (by rfl), Or.inr (by rfl), Or.inr (by rfl),
      Or.inr (by rfl), Or.inr (by rfl), Or.inl rfl, Or.inl rfl,
      Or.inl rfl⟩
  | none =>
  rcases h6 : listPass (purchaseMerge uid) d.purchases s.purchases with ⟨lpu, e6⟩
  cases e6 with
  | some e =>
    rw [mergeAll_err6 h1 h2 h3 h4 h5 h6]
    exact ⟨Or.inr (by rfl), Or.inr (by rfl), Or.inr (by rfl),
      Or.inr (by rfl), Or.inr (by rfl), Or.inr (by rfl),
      Or.inl rfl, Or.inl rfl⟩
  | none =>
  rcases h7 : listPass (adjustmentMerge uid) d.adjustments s.adjustments with ⟨lad, e7⟩
  cases e7 with
  | some e =>
    rw [mergeAll_err7 h1 h2 h3 h4 h5 h6 h7]
    exact ⟨Or.inr (by rfl), Or.inr (by rfl), Or.inr (by rfl),
      Or.inr (by rfl), Or.inr (by rfl), Or.inr (by rfl),
      Or.inr (by rfl), Or.inl rfl⟩
  | none =>
    rw [mergeAll_ok h1 h2 h3 h4 h5 h6 h7]
    exact ⟨Or.inr (by rfl), Or.inr (by rfl), Or.inr (by rfl),
      Or.inr (by rfl), Or.inr (by rfl), Or.inr (by rfl),
      Or.inr (by rfl), Or.inr rfl⟩

theorem sync_of_mergeAll_ok {uid : Int} {t : Timestamp} {d : SyncData}
    {s s2 : Store} (h : mergeAll uid t d s = (s2, none)) :
    sync uid t d s = (s2, Except.ok (collect uid t s2)) := by
  unfold sync
  rw [h]

theorem sync_of_mergeAll_err {uid : Int} {t : Timestamp} {d : SyncData}
    {s s2 : Store} {e : SyncErr} (h : mergeAll uid t d s = (s2, some e)) :
    sync uid t d s = (s2, Except.error e) := by
  unfold sync
  rw [h]

theorem sync_ok_inv {uid : Int} {t : Timestamp} {d : SyncData} {s s2 : Store}
    {r : SyncData} (h : sync uid t d s = (s2, Except.ok r)) :
    mergeAll uid t d s = (s2, none) ∧ r = collect uid t s2 := by
  unfold sync at h
  rcases hm : mergeAll uid t d s with ⟨s3, e⟩
  rw [hm] at h
  cases e with
  | some e => simp at h
  | none =>
    rw [Prod.mk.injEq] at h
    obtain ⟨hA, hB⟩ := h
    subst hA
    exact ⟨rfl, (Except.ok.inj hB).symm⟩

theorem sync_fst {uid : Int} {t : Timestamp} {d : SyncData} {s : Store} :
    (sync uid t d s).1 = (mergeAll uid t d s).1 := by
  unfold sync
  rcases hm : mergeAll uid t d s with ⟨s3, e⟩
  cases e <;> rfl

/-! ## Membership in the sorted change-set -/

theorem mem_insertSortedBy {le : α → α → Bool} {x y : α} {l : List α} :
    y ∈ insertSortedBy le x l ↔ y = x ∨ y ∈ l := by
  induction l with
  | nil => simp [insertSortedBy]
  | cons a l ih =>
    unfold insertSortedBy
    by_cases h : le x a = true
    · simp [h, List.mem_cons]
    · simp only [if_neg h, List.mem_cons, ih]
      tauto

theorem mem_sortBy {le : α → α → Bool} {l : List α} {y : α} :
    y ∈ sortBy le l ↔ y ∈ l := by
  induction l with
  | nil => simp [sortBy]
  | cons a l ih =>
    simp [sortBy, mem_insertSortedBy, ih]

theorem settingsFinal_idem {uid : Int} {t : Timestamp} {d : SyncData}
    {tbl : List SettingsRow} :
    settingsFinal uid t d (settingsFinal uid t d tbl) =
      settingsFinal uid t d tbl := by
  unfold settingsFinal
  cases d.settings with
  | none => rfl
  | some st => exact settingsMerge_idem

theorem settingsFinal_frame {uid : Int} {t : Timestamp} {d : SyncData}
    {tbl : List SettingsRow} {r : SettingsRow} (hr : r ∈ tbl)
    (hne : SettingsRow.user_id r ≠ uid) :
    r ∈ settingsFinal uid t d tbl := by
  unfold settingsFinal
  cases d.settings with
  | none => exact hr
  | some st => exact upsertOnKey_frame _ _ _ _ hr hne

theorem settingsFinal_keepIds {uid : Int} {t : Timestamp} {d : SyncData}
    {tbl : List SettingsRow} {r : SettingsRow} (hr : r ∈ tbl) :
    ∃ r2 ∈ settingsFinal uid t d tbl,
      SettingsRow.user_id r2 = SettingsRow.user_id r := by
  unfold settingsFinal
  cases d.settings with
  | none => exact ⟨r, hr, rfl⟩
  | some st =>
    obtain ⟨r2, hr2, -, h2⟩ := upsertOnKey_keepIds SettingsRow.user_id uid
      (settingsUpdate t st) (settingsInsertRow uid t st)
      SettingsRow.user_id SettingsRow.user_id (fun _ => ⟨rfl, rfl⟩) hr
    exact ⟨r2, hr2, h2⟩

/-- Decidable equality of request outcomes, for evaluating `sync` at
concrete inputs. -/
instance {ε α : Type} [DecidableEq ε] [DecidableEq α] :
    DecidableEq (Except ε α) := fun a b =>
  match a, b with
  | Except.error e1, Except.error e2 =>
    if h : e1 = e2 then isTrue (h ▸ rfl)
    else isFalse (fun hc => h (Except.error.inj hc))
  | Except.error _, Except.ok _ => isFalse (fun hc => Except.noConfusion hc)
  | Except.ok _, Except.error _ => isFalse (fun hc => Except.noConfusion hc)
  | Except.ok a1, Except.ok a2 =>
    if h : a1 = a2 then isTrue (h ▸ rfl)
    else isFalse (fun hc => h (Except.ok.inj hc))

/-! ## Concrete fixtures used by the claim verifications -/

/-- A product row owned by tenant 1 with modification marker (`created_at`) 10. -/
def rowT1P7 : ProductRow :=
  { id := 7, user_id := 1, name := "Rice", category_id := none,
    description := none, purchase_price := 100, selling_price := 120,
    stock := 5, reorder_level := 2, unit := "kg", barcode := none,
    created_at := 10 }

/-- A stale incoming copy of product 7: marker 5, older than the stored 10,
and a different stock. -/
def staleP7 : Product :=
  { id := 7, name := "Rice", purchase_price := some 100,
    selling_price := some 120, stock := 3, reorder_level := some 2,
    unit := "kg", created_at := some 5 }

/-- A product row owned by tenant 1 with marker 5 (older than watermark 10). -/
def rowT1P1 : ProductRow :=
  { id := 1, user_id := 1, name := "Sugar", category_id := none,
    description := none, purchase_price := 10, selling_price := 12,
    stock := 4, reorder_level := 0, unit := "kg", barcode := none,
    created_at := 5 }

/-- A fresh incoming product for an empty store (the spec scenario of §8),
with all three NOT NULL numeric fields supplied. -/
def freshP1 : Product :=
  { id := 1, name := "Sugar 1kg", purchase_price := some 8,
    selling_price := some 12, stock := 10, reorder_level := some 2,
    unit := "kg" }

/-- A product row owned by tenant 2, id 5: its id blocks inserts of id 5 by
any other tenant because `id` is the global primary key. -/
def rowT2P5 : ProductRow :=
  { id := 5, user_id := 2, name := "Beans", category_id := none,
    description := none, purchase_price := 7, selling_price := 9,
    stock := 7, reorder_level := 0, unit := "kg", barcode := none,
    created_at := 1 }

/-- Tenant 1 uploads a product whose id 5 collides with the row of tenant 2;
its NOT NULL numeric fields are all supplied, so the insert reaches the
unique-index check. -/
def collP5 : Product :=
  { id := 5, name := "Maize", purchase_price := some 4,
    selling_price := some 6, stock := 3, reorder_level := some 1,
    unit := "kg" }

/-- A fresh incoming category. -/
def freshC9 : Category := { id := 9, name := "Drinks" }

/-! ## Claim C1 -/

/-- C1, counterexample.  The claim asserts that an incoming record whose
modification marker is equal or older than the stored one leaves the stored
record entirely unchanged.  Here tenant 1 stores product 7 with marker
(`created_at`) 10 and uploads a copy with marker 5 — strictly older — yet
the stored stock is overwritten from 5 to 3: the sync code compares no
markers at all. -/
theorem C1_counterexample :
    staleP7.created_at = some 5 ∧ rowT1P7.created_at = 10 ∧ (5 : Nat) < 10 ∧
    (sync 1 100 { products := [staleP7] } { products := [rowT1P7] }).1 ≠
      { products := [rowT1P7] } ∧
    (sync 1 100 { products := [staleP7] } { products := [rowT1P7] }).1.products =
      [{ rowT1P7 with stock := 3 }] := by
  decide

/-- C1, amended.  For every incoming record of a mergeable kind (product,
category, supplier, sale, purchase, adjustment) whose id already exists for
the tenant, the merge step unconditionally overwrites the stored row with
the incoming fields — no modification-marker comparison happens, newer,
equal and older incoming records all overwrite — no error is raised, the
row keeps its owner (and, for products, its stored `created_at`), and every
row with a different id is untouched.  The one caveat is the products
NOT NULL path: a product that omits `purchase_price`, `selling_price` or
`reorder_level` overwrites nothing — the write raises
`NotNullViolationError`, reported as a 500, before any row is touched. -/
theorem C1_overwrite_unconditional :
    (∀ (uid : Int) (t : Timestamp) (p : Product) (tbl : List ProductRow)
      (e : ProductRow),
      productHasNulls p = false →
      tbl.find? (matchesKey ProductRow.id ProductRow.user_id p.id uid) = some e →
      (productMerge uid t p tbl).2 = none ∧
      (productMerge uid t p tbl).1.find?
          (matchesKey ProductRow.id ProductRow.user_id p.id uid) =
        some (productUpdate p e) ∧
      ((productUpdate p e).created_at = e.created_at ∧
        (productUpdate p e).user_id = e.user_id) ∧
      ∀ r ∈ tbl, ProductRow.id r ≠ p.id → r ∈ (productMerge uid t p tbl).1) ∧
    (∀ (uid : Int) (t : Timestamp) (p : Product) (tbl : List ProductRow),
      productHasNulls p = true →
      productMerge uid t p tbl = (tbl, some SyncErr.notNullViolation) ∧
      errorStatus SyncErr.notNullViolation = 500) ∧
    (∀ (uid : Int) (c : Category) (tbl : List CategoryRow) (e : CategoryRow),
      tbl.find? (matchesKey CategoryRow.id CategoryRow.user_id c.id uid) = some e →
      (categoryMerge uid c tbl).2 = none ∧
      (categoryMerge uid c tbl).1.find?
          (matchesKey CategoryRow.id CategoryRow.user_id c.id uid) =
        some (categoryUpdate c e) ∧
      (categoryUpdate c e).user_id = e.user_id ∧
      ∀ r ∈ tbl, CategoryRow.id r ≠ c.id → r ∈ (categoryMerge uid c tbl).1) ∧
    (∀ (uid : Int) (x : Supplier) (tbl : List SupplierRow) (e : SupplierRow),
      tbl.find? (matchesKey SupplierRow.id SupplierRow.user_id x.id uid) = some e →
      (supplierMerge uid x tbl).2 = none ∧
      (supplierMerge uid x tbl).1.find?
          (matchesKey SupplierRow.id SupplierRow.user_id x.id uid) =
        some (supplierUpdate x e) ∧
      (supplierUpdate x e).user_id = e.user_id ∧
      ∀ r ∈ tbl, SupplierRow.id r ≠ x.id → r ∈ (supplierMerge uid x tbl).1) ∧
    (∀ (uid : Int) (x : Sale) (tbl : List SaleRow) (e : SaleRow),
      tbl.find? (matchesKey SaleRow.id SaleRow.user_id x.id uid) = some e →
      (saleMerge uid x tbl).2 = none ∧
      (saleMerge uid x tbl).1.find?
          (matchesKey SaleRow.id SaleRow.user_id x.id uid) =
        some (saleUpdate x e) ∧
      (saleUpdate x e).user_id = e.user_id ∧
      ∀ r ∈ tbl, SaleRow.id r ≠ x.id → r ∈ (saleMerge uid x tbl).1) ∧
    (∀ (uid : Int) (x : Purchase) (tbl : List PurchaseRow) (e : PurchaseRow),
      tbl.find? (matchesKey PurchaseRow.id PurchaseRow.user_id x.id uid) = some e →
      (purchaseMerge uid x tbl).2 = none ∧
      (purchaseMerge uid x tbl).1.find?
          (matchesKey PurchaseRow.id PurchaseRow.user_id x.id uid) =
        some (purchaseUpdate x e) ∧
      (purchaseUpdate x e).user_id = e.user_id ∧
      ∀ r ∈ tbl, PurchaseRow.id r ≠ x.id → r ∈ (purchaseMerge uid x tbl).1) ∧
    (∀ (uid : Int) (x : Adjustment) (tbl : List AdjustmentRow) (e : AdjustmentRow),
      tbl.find? (matchesKey AdjustmentRow.id AdjustmentRow.user_id x.id uid) = some e →
      (adjustmentMerge uid x tbl).2 = none ∧
      (adjustmentMerge uid x tbl).1.find?
          (matchesKey AdjustmentRow.id AdjustmentRow.user_id x.id uid) =
        some (adjustmentUpdate x e) ∧
      (adjustmentUpdate x e).user_id = e.user_id ∧
      ∀ r ∈ tbl, AdjustmentRow.id r ≠ x.id → r ∈ (adjustmentMerge uid x tbl).1) := by
  refine ⟨?_, ?_, ?_, ?_, ?_, ?_, ?_⟩
  · intro uid t p tbl e hn hf
    rw [productMerge_nonull hn]
    rw [upsertMerge_found ProductRow.id ProductRow.user_id p.id uid
      (productUpdate p) (productInsertRow uid t p) hf]
    refine ⟨rfl, @find?_map_ite _ (matchesKey ProductRow.id ProductRow.user_id p.id uid) (productUpdate p) (fun _ => rfl) _ _ hf, ⟨rfl, rfl⟩, ?_⟩
    intro r hr hne
    exact mem_map_ite_of_neg hr (by simp [matchesKey, hne])
  · intro uid t p tbl hn
    exact ⟨productMerge_nulls hn, rfl⟩
  · intro uid c tbl e hf
    unfold categoryMerge
    rw [upsertMerge_found CategoryRow.id CategoryRow.user_id c.id uid
      (categoryUpdate c) (categoryInsertRow uid c) hf]
    refine ⟨rfl, @find?_map_ite _ (matchesKey CategoryRow.id CategoryRow.user_id c.id uid) (categoryUpdate c) (fun _ => rfl) _ _ hf, rfl, ?_⟩
    intro r hr hne
    exact mem_map_ite_of_neg hr (by simp [matchesKey, hne])
  · intro uid x tbl e hf
    unfold supplierMerge
    rw [upsertMerge_found SupplierRow.id SupplierRow.user_id x.id uid
      (supplierUpdate x) (supplierInsertRow uid x) hf]
    refine ⟨rfl, @find?_map_ite _ (matchesKey SupplierRow.id SupplierRow.user_id x.id uid) (supplierUpdate x) (fun _ => rfl) _ _ hf, rfl, ?_⟩
    intro r hr hne
    exact mem_map_ite_of_neg hr (by simp [matchesKey, hne])
  · intro uid x tbl e hf
    unfold saleMerge
    rw [upsertMerge_found SaleRow.id SaleRow.user_id x.id uid
      (saleUpdate x) (saleInsertRow uid x) hf]
    refine ⟨rfl, @find?_map_ite _ (matchesKey SaleRow.id SaleRow.user_id x.id uid) (saleUpdate x) (fun _ => rfl) _ _ hf, rfl, ?_⟩
    intro r hr hne
    exact mem_map_ite_of_neg hr (by simp [matchesKey, hne])
  · intro uid x tbl e hf
    unfold purchaseMerge
    rw [upsertMerge_found PurchaseRow.id PurchaseRow.user_id x.id uid
      (purchaseUpdate x) (purchaseInsertRow uid x) hf]
    refine ⟨rfl, @find?_map_ite _ (matchesKey PurchaseRow.id PurchaseRow.user_id x.id uid) (purchaseUpdate x) (fun _ => rfl) _ _ hf, rfl, ?_⟩
    intro r hr hne
    exact mem_map_ite_of_neg hr (by simp [matchesKey, hne])
  · intro uid x tbl e hf
    unfold adjustmentMerge
    rw [upsertMerge_found AdjustmentRow.id AdjustmentRow.user_id x.id uid
      (adjustmentUpdate x) (adjustmentInsertRow uid x) hf]
    refine ⟨rfl, @find?_map_ite _ (matchesKey AdjustmentRow.id AdjustmentRow.user_id x.id uid) (adjustmentUpdate x) (fun _ => rfl) _ _ hf, rfl, ?_⟩
    intro r hr hne
    exact mem_map_ite_of_neg hr (by simp [matchesKey, hne])

/-- Witness for the amended C1 at a concrete input: the stale product 7 is
found, merged without error, and the stored row ends up with the incoming
fields while keeping its marker. -/
theorem C1_overwrite_unconditional_witness :
    productHasNulls staleP7 = false ∧
    [rowT1P7].find?
        (matchesKey ProductRow.id ProductRow.user_id staleP7.id 1) =
      some rowT1P7 ∧
    (productMerge 1 100 staleP7 [rowT1P7]).2 = none ∧
    (productMerge 1 100 staleP7 [rowT1P7]).1.find?
        (matchesKey ProductRow.id ProductRow.user_id staleP7.id 1) =
      some (productUpdate staleP7 rowT1P7) ∧
    (productUpdate staleP7 rowT1P7).created_at = rowT1P7.created_at :=
  ⟨by decide, by decide,
    (C1_overwrite_unconditional.1 1 100 staleP7 [rowT1P7] rowT1P7 (by decide)
      (by decide)).1,
    (C1_overwrite_unconditional.1 1 100 staleP7 [rowT1P7] rowT1P7 (by decide)
      (by decide)).2.1,
    (C1_overwrite_unconditional.1 1 100 staleP7 [rowT1P7] rowT1P7 (by decide)
      (by decide)).2.2.1.1⟩

/-! ## Claim C2 -/

/-- C2, counterexample.  The claim asserts the change-set contains exactly
the records whose marker exceeds the watermark `W`.  Tenant 1 stores
product 1 with marker (`created_at`) 5 and syncs with watermark 10 and an
empty batch; the claim demands an empty products change-set, but the
response returns the product anyway — the handler never reads
`last_sync_time`. -/
theorem C2_counterexample :
    rowT1P1.created_at = 5 ∧ (5 : Nat) ≤ 10 ∧
    (sync 1 100 { last_sync_time := some 10 } { products := [rowT1P1] }).2 =
      Except.ok {
        last_sync_time := some 100,
        products := [record_to_product rowT1P1] } := by
  decide

/-- C2, amended.  The change-set ignores the client watermark entirely:
the response is identical for any two watermarks; on success it is the
read-back (`collect`) of the post-merge store, it contains every record the
tenant owns (for each of the six id-keyed kinds, regardless of its marker),
and every incoming product of the call itself reappears in it. -/
theorem C2_changeset_full :
    (∀ (uid : Int) (t : Timestamp) (d : SyncData) (s : Store)
      (w1 w2 : Option Timestamp),
      sync uid t { d with last_sync_time := w1 } s =
        sync uid t { d with last_sync_time := w2 } s) ∧
    (∀ (uid : Int) (t : Timestamp) (d : SyncData) (s s2 : Store) (r : SyncData),
      sync uid t d s = (s2, Except.ok r) → r = collect uid t s2) ∧
    (∀ (uid : Int) (t : Timestamp) (s : Store) (r : ProductRow),
      r ∈ s.products → r.user_id = uid →
      record_to_product r ∈ (collect uid t s).products) ∧
    (∀ (uid : Int) (t : Timestamp) (s : Store) (r : CategoryRow),
      r ∈ s.categories → r.user_id = uid →
      record_to_category r ∈ (collect uid t s).categories) ∧
    (∀ (uid : Int) (t : Timestamp) (s : Store) (r : SupplierRow),
      r ∈ s.suppliers → r.user_id = uid →
      record_to_supplier r ∈ (collect uid t s).suppliers) ∧
    (∀ (uid : Int) (t : Timestamp) (s : Store) (r : SaleRow),
      r ∈ s.sales → r.user_id = uid →
      record_to_sale r ∈ (collect uid t s).sales) ∧
    (∀ (uid : Int) (t : Timestamp) (s : Store) (r : PurchaseRow),
      r ∈ s.purchases → r.user_id = uid →
      record_to_purchase r ∈ (collect uid t s).purchases) ∧
    (∀ (uid : Int) (t : Timestamp) (s : Store) (r : AdjustmentRow),
      r ∈ s.adjustments → r.user_id = uid →
      record_to_adjustment r ∈ (collect uid t s).adjustments) ∧
    (∀ (uid : Int) (t : Timestamp) (d : SyncData) (s s2 : Store) (r2 : SyncData),
      sync uid t d s = (s2, Except.ok r2) →
      ∀ p ∈ d.products, ∃ q ∈ r2.products, Product.id q = p.id) := by
  refine ⟨?_, ?_, ?_, ?_, ?_, ?_, ?_, ?_, ?_⟩
  · intro uid t d s w1 w2
    cases d
    rfl
  · intro uid t d s s2 r h
    exact (sync_ok_inv h).2
  · intro uid t s r hr huid
    simp only [collect]
    exact List.mem_map_of_mem _
      (mem_sortBy.mpr (List.mem_filter.mpr ⟨hr, by simp [huid]⟩))
  · intro uid t s r hr huid
    simp only [collect]
    exact List.mem_map_of_mem _
      (mem_sortBy.mpr (List.mem_filter.mpr ⟨hr, by simp [huid]⟩))
  · intro uid t s r hr huid
    simp only [collect]
    exact List.mem_map_of_mem _
      (mem_sortBy.mpr (List.mem_filter.mpr ⟨hr, by simp [huid]⟩))
  · intro uid t s r hr huid
    simp only [collect]
    exact List.mem_map_of_mem _
      (mem_sortBy.mpr (List.mem_filter.mpr ⟨hr, by simp [huid]⟩))
  · intro uid t s r hr huid
    simp only [collect]
    exact List.mem_map_of_mem _
      (mem_sortBy.mpr (List.mem_filter.mpr ⟨hr, by simp [huid]⟩))
  · intro uid t s r hr huid
    simp only [collect]
    exact List.mem_map_of_mem _
      (mem_sortBy.mpr (List.mem_filter.mpr ⟨hr, by simp [huid]⟩))
  · intro uid t d s s2 r2 h p hp
    obtain ⟨hm, hr⟩ := sync_ok_inv h
    obtain ⟨lc, la, lp, lsup, lsa, lpu, lad, h1, h2, h3, h4, h5, h6, h7, hs2⟩ :=
      mergeAll_ok_inv hm
    obtain ⟨row, hrow, hid, huid⟩ := productPass_present h3 p hp
    subst hs2
    subst hr
    refine ⟨record_to_product row, ?_, ?_⟩
    · simp only [collect]
      exact List.mem_map_of_mem _
        (mem_sortBy.mpr (List.mem_filter.mpr ⟨hrow, by simp [huid]⟩))
    · simpa [record_to_product] using hid

/-- Witness for the amended C2 at a concrete input: the stored product with
marker 5 is in the change-set of a sync with watermark 10. -/
theorem C2_changeset_full_witness :
    (rowT1P1 ∈ ({ products := [rowT1P1] } : Store).products ∧
      rowT1P1.user_id = 1) ∧
    record_to_product rowT1P1 ∈
      (collect 1 100 { products := [rowT1P1] }).products :=
  ⟨⟨by decide, by decide⟩,
    C2_changeset_full.2.2.1 1 100 { products := [rowT1P1] } rowT1P1
      (by decide) (by decide)⟩

/-! ## Claim C3 -/

/-- C3, counterexample.  A client inserts product 1 with no watermark and
then immediately re-syncs with the returned `server_watermark` (100) and an
empty batch.  The claim demands an empty change-set; the second response
returns the product again. -/
theorem C3_counterexample :
    (sync 1 100 { products := [freshP1] } {}).2 =
      Except.ok {
        last_sync_time := some 100,
        products := [record_to_product (productInsertRow 1 100 freshP1)] } ∧
    (sync 1 200 { last_sync_time := some 100 }
        ((sync 1 100 { products := [freshP1] } {}).1)).2 =
      Except.ok {
        last_sync_time := some 200,
        products := [record_to_product (productInsertRow 1 100 freshP1)] } ∧
    [record_to_product (productInsertRow 1 100 freshP1)] ≠ ([] : List Product) := by
  decide

/-- C3, amended.  A second sync with an empty incoming batch (any watermark)
never fails, leaves the store untouched, and returns the full tenant
change-set — identical, entity kind by entity kind, to the one returned by
the first sync, rather than empty. -/
theorem C3_second_sync_full_state :
    ∀ (uid : Int) (t1 t2 : Timestamp) (w : Option Timestamp) (d : SyncData)
      (s s1 : Store) (r1 : SyncData),
      sync uid t1 d s = (s1, Except.ok r1) →
      sync uid t2 { last_sync_time := w } s1 =
        (s1, Except.ok (collect uid t2 s1)) ∧
      (collect uid t2 s1).products = r1.products ∧
      (collect uid t2 s1).categories = r1.categories ∧
      (collect uid t2 s1).suppliers = r1.suppliers ∧
      (collect uid t2 s1).sales = r1.sales ∧
      (collect uid t2 s1).purchases = r1.purchases ∧
      (collect uid t2 s1).adjustments = r1.adjustments ∧
      (collect uid t2 s1).activities = r1.activities ∧
      (collect uid t2 s1).settings = r1.settings := by
  intro uid t1 t2 w d s s1 r1 h
  obtain ⟨-, hr⟩ := sync_ok_inv h
  subst hr
  exact ⟨sync_of_mergeAll_ok rfl, rfl, rfl, rfl, rfl, rfl, rfl, rfl, rfl⟩

/-- Witness for the amended C3 at the concrete round-trip input. -/
theorem C3_second_sync_full_state_witness :
    sync 1 100 { products := [freshP1] } {} =
      ({ products := [productInsertRow 1 100 freshP1] },
        Except.ok (collect 1 100 { products := [productInsertRow 1 100 freshP1] })) ∧
    sync 1 200 { last_sync_time := some 100 }
        { products := [productInsertRow 1 100 freshP1] } =
      ({ products := [productInsertRow 1 100 freshP1] },
        Except.ok (collect 1 200 { products := [productInsertRow 1 100 freshP1] })) :=
  ⟨by decide,
    (C3_second_sync_full_state 1 100 200 (some 100) { products := [freshP1] } {}
      { products := [productInsertRow 1 100 freshP1] }
      (collect 1 100 { products := [productInsertRow 1 100 freshP1] })
      (by decide)).1⟩

/-! ## Claim C4 -/

/-- C4, counterexample.  Tenant 2 owns product id 5.  Tenant 1 syncs a new
category together with a product whose id 5 collides with that row: the
product insert raises the unique violation and the request fails — yet the
category insert, already autocommitted, stays in the store.  The store is
not left as it was before the call, refuting atomicity. -/
theorem C4_counterexample :
    (sync 1 100 { categories := [freshC9], products := [collP5] }
        { products := [rowT2P5] }).2 = Except.error SyncErr.uniqueViolation ∧
    (sync 1 100 { categories := [freshC9], products := [collP5] }
        { products := [rowT2P5] }).1 ≠ { products := [rowT2P5] } ∧
    (sync 1 100 { categories := [freshC9], products := [collP5] }
        { products := [rowT2P5] }).1.categories = [categoryInsertRow 1 freshC9] := by
  decide

/-- C4, amended.  There is no enclosing transaction: every statement
autocommits.  When a later merge step fails, the sync request errors but
the writes of earlier steps remain applied — here, a category freshly
inserted before a conflicting product insert survives the failed call. -/
theorem C4_partial_write_persists :
    ∀ (uid : Int) (t : Timestamp) (c : Category) (p : Product) (s : Store),
      productHasNulls p = false →
      s.categories.find?
          (matchesKey CategoryRow.id CategoryRow.user_id c.id uid) = none →
      s.categories.any (fun r => CategoryRow.id r == c.id) = false →
      s.products.find?
          (matchesKey ProductRow.id ProductRow.user_id p.id uid) = none →
      s.products.any (fun r => ProductRow.id r == p.id) = true →
      sync uid t { categories := [c], products := [p] } s =
        ({ s with categories := s.categories ++ [categoryInsertRow uid c] },
          Except.error SyncErr.uniqueViolation) := by
  intro uid t c p s hn hc1 hc2 hp1 hp2
  have h1 : listPass (categoryMerge uid) [c] s.categories =
      (s.categories ++ [categoryInsertRow uid c], none) := by
    have hstep : categoryMerge uid c s.categories =
        (s.categories ++ [categoryInsertRow uid c], none) := by
      unfold categoryMerge
      exact upsertMerge_inserted CategoryRow.id CategoryRow.user_id c.id uid
        (categoryUpdate c) (categoryInsertRow uid c) hc1 hc2
    simp only [listPass]
    rw [hstep]
  have h3 : listPass (productMerge uid t) [p] s.products =
      (s.products, some SyncErr.uniqueViolation) := by
    have hstep : productMerge uid t p s.products =
        (s.products, some SyncErr.uniqueViolation) := by
      rw [productMerge_nonull hn]
      exact upsertMerge_conflict ProductRow.id ProductRow.user_id p.id uid
        (productUpdate p) (productInsertRow uid t p) hp1 hp2
    simp only [listPass]
    rw [hstep]
  have hm := @mergeAll_err3 uid t { categories := [c], products := [p] } s
    (s.categories ++ [categoryInsertRow uid c]) s.activities s.products
    SyncErr.uniqueViolation h1 rfl h3
  rw [sync_of_mergeAll_err hm]

/-- Witness for the amended C4 at the concrete colliding input. -/
theorem C4_partial_write_persists_witness :
    productHasNulls collP5 = false ∧
    ([rowT2P5].find?
        (matchesKey ProductRow.id ProductRow.user_id collP5.id 1)) = none ∧
    ([rowT2P5].any (fun r => ProductRow.id r == collP5.id)) = true ∧
    sync 1 100 { categories := [freshC9], products := [collP5] }
        { products := [rowT2P5] } =
      ({ products := [rowT2P5], categories := [categoryInsertRow 1 freshC9] },
        Except.error SyncErr.uniqueViolation) :=
  ⟨by decide, by decide, by decide,
    C4_partial_write_persists 1 100 freshC9 collP5 { products := [rowT2P5] }
      (by decide) (by decide) (by decide) (by decide) (by decide)⟩

/-! ## Claim C5 -/

/-- C5, counterexample.  Submitting the same batch twice does leave the
store as after one submission and raises no error — but the second
change-set for the resubmitted product is not empty as the claim demands:
the response always carries the full tenant state. -/
theorem C5_counterexample :
    (sync 1 100 { products := [freshP1] }
        ((sync 1 100 { products := [freshP1] } {}).1)).1 =
      (sync 1 100 { products := [freshP1] } {}).1 ∧
    (sync 1 100 { products := [freshP1] }
        ((sync 1 100 { products := [freshP1] } {}).1)).2 =
      Except.ok {
        last_sync_time := some 100,
        products := [record_to_product (productInsertRow 1 100 freshP1)] } ∧
    [record_to_product (productInsertRow 1 100 freshP1)] ≠ ([] : List Product) := by
  decide

/-- C5, amended.  Re-submitting an identical batch at the same server time
to the post-sync store succeeds, changes nothing, and returns the identical
response — whose change-set holds the full tenant state, not the empty
set.  This needs no distinctness condition on the batch: a duplicated id is
simply overwritten again by its later occurrence. -/
theorem C5_idempotent_store :
    ∀ (uid : Int) (t : Timestamp) (d : SyncData) (s s1 : Store) (r1 : SyncData),
      sync uid t d s = (s1, Except.ok r1) →
      sync uid t d s1 = (s1, Except.ok r1) := by
  intro uid t d s s1 r1 h
  obtain ⟨hm, hr⟩ := sync_ok_inv h
  obtain ⟨lc, la, lp, lsup, lsa, lpu, lad, h1, h2, h3, h4, h5, h6, h7, hs1⟩ :=
    mergeAll_ok_inv hm
  subst hs1
  have k1 := categoryPass_idem h1
  have k2 := activityPass_idem h2
  have k3 := productPass_idem h3
  have k4 := supplierPass_idem h4
  have k5 := salePass_idem h5
  have k6 := purchasePass_idem h6
  have k7 := adjustmentPass_idem h7
  have hm2 := @mergeAll_ok uid t d
    ({ s with
      categories := lc, activities := la, products := lp,
      suppliers := lsup, sales := lsa, purchases := lpu, adjustments := lad,
      settings := settingsFinal uid t d s.settings })
    lc la lp lsup lsa lpu lad k1 k2 k3 k4 k5 k6 k7
  rw [sync_of_mergeAll_ok hm2, hr]
  simp [settingsFinal_idem]

/-- Witness for the amended C5 at a concrete input: resubmitting the
single-product batch to the already-synced store. -/
theorem C5_idempotent_store_witness :
    sync 1 100 { products := [freshP1] }
        { products := [productInsertRow 1 100 freshP1] } =
      ({ products := [productInsertRow 1 100 freshP1] },
        Except.ok (collect 1 100 { products := [productInsertRow 1 100 freshP1] })) :=
  C5_idempotent_store 1 100 { products := [freshP1] } {}
    { products := [productInsertRow 1 100 freshP1] }
    (collect 1 100 { products := [productInsertRow 1 100 freshP1] })
    (by decide)

/-! ## Claim C6 -/

/-- An activity row owned by tenant 2. -/
def rowT2A1 : ActivityRow :=
  { id := 1, user_id := 2, date := 4, activity := "login", username := "bob",
    details := "original" }

/-- Tenant 1 uploads an activity whose id collides with the tenant-2 row. -/
def collA1 : Activity :=
  { id := 1, date := 9, activity := "edited", username := "mallory",
    details := "overwritten" }

/-- The tenant-2 row after the tenant-1 sync: still owned by tenant 2 and
keeping its username, but with `date`, `activity` and `details` overwritten
by tenant 1. -/
def rowT2A1after : ActivityRow :=
  { id := 1, user_id := 2, date := 9, activity := "edited", username := "bob",
    details := "overwritten" }

/-- C6, evaluation at the failing input.  The activities merge inserts with
`ON CONFLICT (id) DO UPDATE`, and `id` is the table-wide primary key — not
scoped by tenant.  A sync by tenant 1 with an activity id owned by tenant 2
therefore overwrites the fields of the tenant-2 row (while the change-set
correctly shows tenant 1 nothing, so the damage is silent).  Every other
statement of the handler filters on `user_id`; the claim (tenant isolation)
states the clear intent, and this conflict target is the slip. -/
theorem C6_cross_tenant_activity_overwrite :
    rowT2A1.user_id = 2 ∧ (2 : Int) ≠ 1 ∧
    (sync 1 100 { activities := [collA1] } { activities := [rowT2A1] }).1.activities =
      [rowT2A1after] ∧
    rowT2A1after ≠ rowT2A1 ∧
    (sync 1 100 { activities := [collA1] } { activities := [rowT2A1] }).2 =
      Except.ok { last_sync_time := some 100 } := by
  decide

/-! ## Claim C7 -/

/-- C7, counterexample.  The claim says a duplicate-key violation on the
insert path is caught and retried as an update.  The handler instead maps
`UniqueViolationError` to an HTTP 409 and fails the whole request: the
colliding product is not applied at all. -/
theorem C7_counterexample :
    (sync 1 100 { products := [collP5] } { products := [rowT2P5] }).2 =
      Except.error SyncErr.uniqueViolation ∧
    errorStatus SyncErr.uniqueViolation = 409 ∧
    (sync 1 100 { products := [collP5] } { products := [rowT2P5] }).1 =
      { products := [rowT2P5] } := by
  decide

/-- C7, amended.  A duplicate-key violation on the insert path aborts the
request with a 409 conflict error; no update fallback happens and the
products table is left unchanged. -/
theorem C7_conflict_aborts :
    ∀ (uid : Int) (t : Timestamp) (p : Product) (s : Store),
      productHasNulls p = false →
      s.products.find?
          (matchesKey ProductRow.id ProductRow.user_id p.id uid) = none →
      s.products.any (fun r => ProductRow.id r == p.id) = true →
      sync uid t { products := [p] } s =
        (s, Except.error SyncErr.uniqueViolation) ∧
      errorStatus SyncErr.uniqueViolation = 409 := by
  intro uid t p s hn hp1 hp2
  refine ⟨?_, rfl⟩
  have h3 : listPass (productMerge uid t) [p] s.products =
      (s.products, some SyncErr.uniqueViolation) := by
    have hstep : productMerge uid t p s.products =
        (s.products, some SyncErr.uniqueViolation) := by
      rw [productMerge_nonull hn]
      exact upsertMerge_conflict ProductRow.id ProductRow.user_id p.id uid
        (productUpdate p) (productInsertRow uid t p) hp1 hp2
    simp only [listPass]
    rw [hstep]
  have hm := @mergeAll_err3 uid t { products := [p] } s
    s.categories s.activities s.products SyncErr.uniqueViolation rfl rfl h3
  rw [sync_of_mergeAll_err hm]

/-- Witness for the amended C7 at the concrete colliding input. -/
theorem C7_conflict_aborts_witness :
    productHasNulls collP5 = false ∧
    ([rowT2P5].find?
        (matchesKey ProductRow.id ProductRow.user_id collP5.id 1)) = none ∧
    sync 1 100 { products := [collP5] } { products := [rowT2P5] } =
      ({ products := [rowT2P5] }, Except.error SyncErr.uniqueViolation) :=
  ⟨by decide, by decide,
    (C7_conflict_aborts 1 100 collP5 { products := [rowT2P5] }
      (by decide) (by decide) (by decide)).1⟩

/-! ## Claim C8 -/

/-- A product the client created offline at its own time 5, with all three
NOT NULL numeric fields supplied. -/
def clientStampedP3 : Product :=
  { id := 3, name := "Salt", purchase_price := some 1, selling_price := some 2,
    stock := 1, reorder_level := some 1, unit := "pc", created_at := some 5 }

/-- C8, counterexample.  The claim says a new record is stamped with the
server transaction timestamp, never the client-supplied marker.  The insert
executes `make_timezone_naive(product.created_at) or server_time`: the
client timestamp 5 is stored, not the server time 100. -/
theorem C8_counterexample :
    clientStampedP3.created_at = some 5 ∧ (5 : Nat) ≠ 100 ∧
    (sync 1 100 { products := [clientStampedP3] } {}).1.products =
      [productInsertRow 1 100 clientStampedP3] ∧
    (productInsertRow 1 100 clientStampedP3).created_at = 5 := by
  decide

/-- C8, amended.  A new product row is inserted with `created_at` equal to
the client-supplied timestamp whenever one is present; the server
transaction time is used only as a fallback when the client sends none. -/
theorem C8_insert_stamps_client_time :
    ∀ (uid : Int) (t : Timestamp) (p : Product) (tbl : List ProductRow),
      productHasNulls p = false →
      tbl.find? (matchesKey ProductRow.id ProductRow.user_id p.id uid) = none →
      tbl.any (fun r => ProductRow.id r == p.id) = false →
      productMerge uid t p tbl = (tbl ++ [productInsertRow uid t p], none) ∧
      (productInsertRow uid t p).created_at = p.created_at.getD t ∧
      (∀ c, p.created_at = some c → (productInsertRow uid t p).created_at = c) ∧
      (p.created_at = none → (productInsertRow uid t p).created_at = t) := by
  intro uid t p tbl hn h1 h2
  refine ⟨?_, rfl, ?_, ?_⟩
  · rw [productMerge_nonull hn]
    exact upsertMerge_inserted ProductRow.id ProductRow.user_id p.id uid
      (productUpdate p) (productInsertRow uid t p) h1 h2
  · intro c hc
    simp [productInsertRow, hc]
  · intro hc
    simp [productInsertRow, hc]

/-- Witness for the amended C8: inserting the client-stamped product into an
empty table keeps the client marker 5, not the server time 100. -/
theorem C8_insert_stamps_client_time_witness :
    productHasNulls clientStampedP3 = false ∧
    (([] : List ProductRow).find?
        (matchesKey ProductRow.id ProductRow.user_id clientStampedP3.id 1)) = none ∧
    productMerge 1 100 clientStampedP3 [] =
      ([productInsertRow 1 100 clientStampedP3], none) ∧
    (productInsertRow 1 100 clientStampedP3).created_at = 5 :=
  ⟨by decide, by decide,
    (C8_insert_stamps_client_time 1 100 clientStampedP3 [] (by decide) (by decide)
      (by decide)).1,
    (C8_insert_stamps_client_time 1 100 clientStampedP3 [] (by decide) (by decide)
      (by decide)).2.2.1 5 (by decide)⟩

/-! ## Claim C9 -/

/-- An activity row owned by tenant 2, id 8. -/
def rowT2A8 : ActivityRow :=
  { id := 8, user_id := 2, date := 3, activity := "audit", username := "bob",
    details := "keep" }

/-- Tenant 1 uploads an activity with id 8 and a bogus client `user_id`. -/
def collA8 : Activity :=
  { id := 8, user_id := some 77, date := 9, activity := "changed",
    username := "eve", details := "replaced" }

/-- The tenant-2 row with id 8 after the tenant-1 sync. -/
def rowT2A8after : ActivityRow :=
  { id := 8, user_id := 2, date := 9, activity := "changed", username := "bob",
    details := "replaced" }

/-- C9, counterexample.  The conflict-update path of the activities merge
updates a row whose stored `user_id` is another tenant: the row written by
the call carries `user_id = 2`, not the authenticated caller id 1 — so not
every row written by sync is stored under the caller id. -/
theorem C9_counterexample :
    (sync 1 100 { activities := [collA8] } { activities := [rowT2A8] }).1.activities =
      [rowT2A8after] ∧
    rowT2A8after.user_id = 2 ∧ (2 : Int) ≠ 1 := by
  decide

/-- C9, amended.  The client-supplied `user_id` inside an incoming record is
completely ignored by the merge (the result is identical for any value);
every freshly inserted row of every kind carries the authenticated caller
id; and every per-kind update writes no `user_id` at all, so the updated
row keeps its stored owner — which equals the caller for the six kinds
looked up by `(id, user_id)`, the activities conflict path being the
exception recorded in the counterexample. -/
theorem C9_inserted_rows_owner :
    (∀ (uid v : Int) (t : Timestamp) (p : Product) (tbl : List ProductRow),
      productMerge uid t { p with user_id := some v } tbl =
        productMerge uid t p tbl) ∧
    (∀ (uid v : Int) (c : Category) (tbl : List CategoryRow),
      categoryMerge uid { c with user_id := some v } tbl =
        categoryMerge uid c tbl) ∧
    (∀ (uid v : Int) (a : Activity) (tbl : List ActivityRow),
      activityMerge uid { a with user_id := some v } tbl =
        activityMerge uid a tbl) ∧
    (∀ (uid : Int) (t : Timestamp) (p : Product),
      (productInsertRow uid t p).user_id = uid) ∧
    (∀ (uid : Int) (c : Category), (categoryInsertRow uid c).user_id = uid) ∧
    (∀ (uid : Int) (x : Supplier), (supplierInsertRow uid x).user_id = uid) ∧
    (∀ (uid : Int) (x : Sale), (saleInsertRow uid x).user_id = uid) ∧
    (∀ (uid : Int) (x : Purchase), (purchaseInsertRow uid x).user_id = uid) ∧
    (∀ (uid : Int) (x : Adjustment), (adjustmentInsertRow uid x).user_id = uid) ∧
    (∀ (uid : Int) (a : Activity), (activityInsertRow uid a).user_id = uid) ∧
    (∀ (uid : Int) (t : Timestamp) (x : Settings),
      (settingsInsertRow uid t x).user_id = uid) ∧
    (∀ (p : Product) (r : ProductRow), (productUpdate p r).user_id = r.user_id) ∧
    (∀ (c : Category) (r : CategoryRow), (categoryUpdate c r).user_id = r.user_id) ∧
    (∀ (x : Supplier) (r : SupplierRow), (supplierUpdate x r).user_id = r.user_id) ∧
    (∀ (x : Sale) (r : SaleRow), (saleUpdate x r).user_id = r.user_id) ∧
    (∀ (x : Purchase) (r : PurchaseRow), (purchaseUpdate x r).user_id = r.user_id) ∧
    (∀ (x : Adjustment) (r : AdjustmentRow),
      (adjustmentUpdate x r).user_id = r.user_id) ∧
    (∀ (a : Activity) (r : ActivityRow), (activityUpdate a r).user_id = r.user_id) := by
  refine ⟨?_, ?_, ?_, fun _ _ _ => rfl, fun _ _ => rfl, fun _ _ => rfl,
    fun _ _ => rfl, fun _ _ => rfl, fun _ _ => rfl, fun _ _ => rfl,
    fun _ _ _ => rfl, fun _ _ => rfl, fun _ _ => rfl, fun _ _ => rfl,
    fun _ _ => rfl, fun _ _ => rfl, fun _ _ => rfl, fun _ _ => rfl⟩
  · intro uid v t p tbl
    cases p
    rfl
  · intro uid v c tbl
    cases c
    rfl
  · intro uid v a tbl
    cases a
    rfl

/-! ## Claim C10 -/

/-- C10, confirmed.  The sync operation never deletes rows — for every entity
kind, every row present before the call still has a row with its id and
owner afterwards, even when the call fails mid-way — and every row whose id
is not among the incoming ids of its kind is kept byte-for-byte unchanged
(for settings: rows of other tenants are untouched, and with no incoming
settings the whole table is untouched). -/
theorem C10_frame :
    ∀ (uid : Int) (t : Timestamp) (d : SyncData) (s : Store),
      (∀ r ∈ s.products, ∃ r2 ∈ (sync uid t d s).1.products,
        ProductRow.id r2 = ProductRow.id r ∧
        ProductRow.user_id r2 = ProductRow.user_id r) ∧
      (∀ r ∈ s.products, ProductRow.id r ∉ d.products.map Product.id →
        r ∈ (sync uid t d s).1.products) ∧
      (∀ r ∈ s.categories, ∃ r2 ∈ (sync uid t d s).1.categories,
        CategoryRow.id r2 = CategoryRow.id r ∧
        CategoryRow.user_id r2 = CategoryRow.user_id r) ∧
      (∀ r ∈ s.categories, CategoryRow.id r ∉ d.categories.map Category.id →
        r ∈ (sync uid t d s).1.categories) ∧
      (∀ r ∈ s.suppliers, ∃ r2 ∈ (sync uid t d s).1.suppliers,
        SupplierRow.id r2 = SupplierRow.id r ∧
        SupplierRow.user_id r2 = SupplierRow.user_id r) ∧
      (∀ r ∈ s.suppliers, SupplierRow.id r ∉ d.suppliers.map Supplier.id →
        r ∈ (sync uid t d s).1.suppliers) ∧
      (∀ r ∈ s.sales, ∃ r2 ∈ (sync uid t d s).1.sales,
        SaleRow.id r2 = SaleRow.id r ∧
        SaleRow.user_id r2 = SaleRow.user_id r) ∧
      (∀ r ∈ s.sales, SaleRow.id r ∉ d.sales.map Sale.id →
        r ∈ (sync uid t d s).1.sales) ∧
      (∀ r ∈ s.purchases, ∃ r2 ∈ (sync uid t d s).1.purchases,
        PurchaseRow.id r2 = PurchaseRow.id r ∧
        PurchaseRow.user_id r2 = PurchaseRow.user_id r) ∧
      (∀ r ∈ s.purchases, PurchaseRow.id r ∉ d.purchases.map Purchase.id →
        r ∈ (sync uid t d s).1.purchases) ∧
      (∀ r ∈ s.adjustments, ∃ r2 ∈ (sync uid t d s).1.adjustments,
        AdjustmentRow.id r2 = AdjustmentRow.id r ∧
        AdjustmentRow.user_id r2 = AdjustmentRow.user_id r) ∧
      (∀ r ∈ s.adjustments, AdjustmentRow.id r ∉ d.adjustments.map Adjustment.id →
        r ∈ (sync uid t d s).1.adjustments) ∧
      (∀ r ∈ s.activities, ∃ r2 ∈ (sync uid t d s).1.activities,
        ActivityRow.id r2 = ActivityRow.id r ∧
        ActivityRow.user_id r2 = ActivityRow.user_id r) ∧
      (∀ r ∈ s.activities, ActivityRow.id r ∉ d.activities.map Activity.id →
        r ∈ (sync uid t d s).1.activities) ∧
      (∀ r ∈ s.settings, ∃ r2 ∈ (sync uid t d s).1.settings,
        SettingsRow.user_id r2 = SettingsRow.user_id r) ∧
      (d.settings = none → (sync uid t d s).1.settings = s.settings) ∧
      (∀ r ∈ s.settings, SettingsRow.user_id r ≠ uid →
        r ∈ (sync uid t d s).1.settings) := by
  intro uid t d s
  rw [sync_fst]
  obtain ⟨hc, ha, hp, hsup, hsa, hpu, had, hset⟩ := @mergeAll_tables uid t d s
  refine ⟨?_, ?_, ?_, ?_, ?_, ?_, ?_, ?_, ?_, ?_, ?_, ?_, ?_, ?_, ?_, ?_, ?_⟩
  · intro r hr
    rcases hp with heq | heq
    · rw [heq]; exact ⟨r, hr, rfl, rfl⟩
    · rw [heq]; exact productPass_keepIds hr
  · intro r hr hnot
    rcases hp with heq | heq
    · rw [heq]; exact hr
    · rw [heq]
      exact productPass_frame hr
        (fun x hx he => hnot (by rw [he]; exact List.mem_map_of_mem Product.id hx))
  · intro r hr
    rcases hc with heq | heq
    · rw [heq]; exact ⟨r, hr, rfl, rfl⟩
    · rw [heq]; exact categoryPass_keepIds hr
  · intro r hr hnot
    rcases hc with heq | heq
    · rw [heq]; exact hr
    · rw [heq]
      exact categoryPass_frame hr
        (fun x hx he => hnot (by rw [he]; exact List.mem_map_of_mem Category.id hx))
  · intro r hr
    rcases hsup with heq | heq
    · rw [heq]; exact ⟨r, hr, rfl, rfl⟩
    · rw [heq]; exact supplierPass_keepIds hr
  · intro r hr hnot
    rcases hsup with heq | heq
    · rw [heq]; exact hr
    · rw [heq]
      exact supplierPass_frame hr
        (fun x hx he => hnot (by rw [he]; exact List.mem_map_of_mem Supplier.id hx))
  · intro r hr
    rcases hsa with heq | heq
    · rw [heq]; exact ⟨r, hr, rfl, rfl⟩
    · rw [heq]; exact salePass_keepIds hr
  · intro r hr hnot
    rcases hsa with heq | heq
    · rw [heq]; exact hr
    · rw [heq]
      exact salePass_frame hr
        (fun x hx he => hnot (by rw [he]; exact List.mem_map_of_mem Sale.id hx))
  · intro r hr
    rcases hpu with heq | heq
    · rw [heq]; exact ⟨r, hr, rfl, rfl⟩
    · rw [heq]; exact purchasePass_keepIds hr
  · intro r hr hnot
    rcases hpu with heq | heq
    · rw [heq]; exact hr
    · rw [heq]
      exact purchasePass_frame hr
        (fun x hx he => hnot (by rw [he]; exact List.mem_map_of_mem Purchase.id hx))
  · intro r hr
    rcases had with heq | heq
    · rw [heq]; exact ⟨r, hr, rfl, rfl⟩
    · rw [heq]; exact adjustmentPass_keepIds hr
  · intro r hr hnot
    rcases had with heq | heq
    · rw [heq]; exact hr
    · rw [heq]
      exact adjustmentPass_frame hr
        (fun x hx he => hnot (by rw [he]; exact List.mem_map_of_mem Adjustment.id hx))
  · intro r hr
    rcases ha with heq | heq
    · rw [heq]; exact ⟨r, hr, rfl, rfl⟩
    · rw [heq]; exact activityPass_keepIds hr
  · intro r hr hnot
    rcases ha with heq | heq
    · rw [heq]; exact hr
    · rw [heq]
      exact activityPass_frame hr
        (fun x hx he => hnot (by rw [he]; exact List.mem_map_of_mem Activity.id hx))
  · intro r hr
    rcases hset with heq | heq
    · rw [heq]; exact ⟨r, hr, rfl⟩
    · rw [heq]; exact settingsFinal_keepIds hr
  · intro hnone
    rcases hset with heq | heq
    · exact heq
    · rw [heq]
      simp [settingsFinal, hnone]
  · intro r hr hne
    rcases hset with heq | heq
    · rw [heq]; exact hr
    · rw [heq]; exact settingsFinal_frame hr hne

/-- Witness for C10 at a concrete input: the tenant-2 product with id 5 is
untouched by a tenant-1 sync whose batch holds only product id 1. -/
theorem C10_frame_witness :
    rowT2P5 ∈ ({ products := [rowT2P5] } : Store).products ∧
    ProductRow.id rowT2P5 ∉
      ({ products := [freshP1] } : SyncData).products.map Product.id ∧
    rowT2P5 ∈ (sync 1 100 { products := [freshP1] } { products := [rowT2P5] }).1.products :=
  ⟨by decide, by decide,
    (C10_frame 1 100 { products := [freshP1] } { products := [rowT2P5] }).2.1
      rowT2P5 (by decide) (by decide)⟩

end Inventry
